import Mathlib

/-!
Shallow embedding of the AWS DevOps agent's prompt-to-validated-operation
pipeline (configuration validator, parameter resolvers, service router,
resource agents, top-level orchestrator, and the JSON extraction/repair
helpers), together with theorems settling the frozen claims about it.

Python strings are modelled as lists of characters, Python values as the
inductive `Value` below, and Python dicts as insertion-ordered association
lists.  The language-model oracle and the cloud provider are opaque
boundaries; their replies enter the model as explicit parameters.
-/

set_option autoImplicit false
set_option linter.unusedVariables false

/-- Python strings, modelled as lists of characters. -/
abbrev Str := List Char

/-- Shorthand turning a Lean string literal into the `Str` model. -/
def str (s : String) : Str := s.data

/-- A Python value: `None`, `str`, `int`, `bool`, `list` or `dict`
(dicts are insertion-ordered association lists with string keys, which is
the only key shape the embedded code ever builds). -/
inductive Value where
  | null : Value
  | vstr : Str → Value
  | vint : Int → Value
  | vbool : Bool → Value
  | vlist : List Value → Value
  | vdict : List (Str × Value) → Value

/-- A Python dict with string keys (insertion-ordered association list). -/
abbrev Params := List (Str × Value)

/-- `d[k]` lookup: first binding wins (keys are unique in every dict the
embedded code builds, so this matches Python dict lookup). -/
def getVal (d : Params) (k : Str) : Option Value :=
  match d with
  | [] => none
  | (k', v) :: rest => if k' = k then some v else getVal rest k

/-- Python `k in d`. -/
def hasKey (d : Params) (k : Str) : Bool :=
  (getVal d k).isSome

/-- Python `d[k] = v`: overwrite in place when the key exists, append
otherwise (Python dicts keep the original insertion position on update). -/
def setVal (d : Params) (k : Str) (v : Value) : Params :=
  match d with
  | [] => [(k, v)]
  | (k', v') :: rest => if k' = k then (k', v) :: rest else (k', v') :: setVal rest k v

/-- Python truthiness of a value. -/
def truthy : Value → Bool
  | Value.null => false
  | Value.vstr s => !s.isEmpty
  | Value.vint n => n ≠ 0
  | Value.vbool b => b
  | Value.vlist l => !l.isEmpty
  | Value.vdict d => !d.isEmpty

/-- Truthiness of `d.get(k)` (absent keys behave like `None`). -/
def truthyGet (d : Params) (k : Str) : Bool :=
  match getVal d k with
  | none => false
  | some v => truthy v

/-- Python `d.get(k, default)`. -/
def getD (d : Params) (k : Str) (v : Value) : Value :=
  match getVal d k with
  | none => v
  | some w => w

/-- Python `str.lower()` (the source only lowercases ASCII text). -/
def lowerStr (s : Str) : Str := s.map Char.toLower

/-- Does `needle` occur at the front of `hay`?  (`List.isPrefixOf`). -/
def atFront (needle hay : Str) : Bool := List.isPrefixOf needle hay

/-- Index of the first occurrence of `needle` in `hay`, if any
(Python `hay.find(needle)` when it does not return `-1`). -/
def strFind (hay needle : Str) : Option Nat :=
  if atFront needle hay then some 0
  else
    match hay with
    | [] => none
    | _ :: t =>
      match strFind t needle with
      | none => none
      | some n => some (n + 1)

/-- Python `needle in hay` on strings. -/
def strContains (hay needle : Str) : Bool := (strFind hay needle).isSome

/-- Python `hay.find(needle)` (yields `-1` when absent). -/
def pyFind (hay needle : Str) : Int :=
  match strFind hay needle with
  | none => -1
  | some n => (n : Int)

/-- Characters matched by the regex class `[a-z0-9]`. -/
def isIdChar (c : Char) : Bool :=
  (Char.ofNat 97 ≤ c && c ≤ Char.ofNat 122) || c.isDigit

/-- Length of the longest run of `[a-z0-9]` characters at the front. -/
def idRun : Str → Nat
  | [] => 0
  | c :: t => if isIdChar c then idRun t + 1 else 0

/-- Does the regex `i-[a-z0-9]{8,17}` match at the front of `s`?
(For existence of a match only the lower bound of the counted
repetition matters.) -/
def idMatchHere (s : Str) : Bool :=
  match s with
  | 'i' :: '-' :: rest => decide (8 ≤ idRun rest)
  | _ => false

/-- Does `re.search` find `i-[a-z0-9]{8,17}` anywhere in `s`? -/
def idSearch : Str → Bool
  | [] => false
  | c :: t => idMatchHere (c :: t) || idSearch t

example : getVal [(str "a", Value.vint 1)] (str "a") = some (Value.vint 1) := rfl
example : strFind (str "abcab") (str "ab") = some 0 := by decide
example : strFind (str "xabc") (str "bc") = some 2 := by decide
example : strContains (str "hello") (str "") = true := by decide
example : pyFind (str "hello") (str "zz") = -1 := by decide
example : idSearch (str "stop i-1234567890abcdef0 now") = true := by decide
example : idSearch (str "stop i-12345 now") = false := by decide
example : lowerStr (str "StOp") = str "stop" := by decide

/-! ### JSON parsing and repair (src/utils/prompt_understanding.py) -/

/-- Whitespace characters of Python's `\s` / `str.strip()` (ASCII part). -/
def isPySpace (c : Char) : Bool :=
  c = ' ' || c = '\t' || c = '\n' || c = '\r' || c = Char.ofNat 11 || c = Char.ofNat 12

/-- Skip leading whitespace. -/
def skipWs (s : Str) : Str := s.dropWhile isPySpace

/-- Python `str.strip()`. -/
def stripStr (s : Str) : Str :=
  ((skipWs s).reverse.dropWhile isPySpace).reverse

/-- JSON string escapes understood by the model of `json.loads`
(`\uXXXX` escapes are outside the model and make the parse fail). -/
def jsonEsc (c : Char) : Option Char :=
  if c = '"' then some '"'
  else if c = '\\' then some '\\'
  else if c = '/' then some '/'
  else if c = 'n' then some '\n'
  else if c = 't' then some '\t'
  else if c = 'r' then some '\r'
  else if c = 'b' then some (Char.ofNat 8)
  else if c = 'f' then some (Char.ofNat 12)
  else none

/-- Parse the body of a JSON string after the opening `"`: returns the
decoded contents and the remainder after the closing `"`. -/
def parseStrBody : Str → Option (Str × Str)
  | [] => none
  | c :: rest =>
    if c = '"' then some ([], rest)
    else if c = '\\' then
      match rest with
      | [] => none
      | e :: rest' =>
        match jsonEsc e with
        | none => none
        | some d =>
          match parseStrBody rest' with
          | none => none
          | some (cs, r) => some (d :: cs, r)
    else
      match parseStrBody rest with
      | none => none
      | some (cs, r) => some (c :: cs, r)

/-- Digits of a decimal literal read off the front. -/
def digitsVal : Str → Nat → Nat × Str
  | [], acc => (acc, [])
  | c :: rest, acc =>
    if c.isDigit then digitsVal rest (acc * 10 + (c.toNat - 48)) else (acc, c :: rest)

/-- Parse a JSON integer (an optional `-` then digits; fractional and
exponent forms are floating point and outside the model, so they fail). -/
def parseIntLit (s : Str) : Option (Value × Str) :=
  match s with
  | '-' :: rest =>
    match rest with
    | c :: _ =>
      if c.isDigit then
        let (n, r) := digitsVal rest 0
        match r with
        | '.' :: _ => none
        | 'e' :: _ => none
        | 'E' :: _ => none
        | _ => some (Value.vint (-(n : Int)), r)
      else none
    | [] => none
  | c :: _ =>
    if c.isDigit then
      let (n, r) := digitsVal s 0
      match r with
      | '.' :: _ => none
      | 'e' :: _ => none
      | 'E' :: _ => none
      | _ => some (Value.vint (n : Int), r)
    else none
  | [] => none

mutual

/-- Recursive-descent model of `json.loads` on one value, returning the
remainder of the input; the fuel argument only bounds recursion depth
(any fuel of at least the input length suffices). -/
def parseVal : Nat → Str → Option (Value × Str)
  | 0, _ => none
  | Nat.succ f, s =>
    match skipWs s with
    | '{' :: rest =>
      (match skipWs rest with
       | '}' :: r => some (Value.vdict [], r)
       | s' => parseMembers f s' [])
    | '[' :: rest =>
      (match skipWs rest with
       | ']' :: r => some (Value.vlist [], r)
       | s' => parseItems f s' [])
    | '"' :: rest =>
      (match parseStrBody rest with
       | none => none
       | some (cs, r) => some (Value.vstr cs, r))
    | 't' :: 'r' :: 'u' :: 'e' :: rest => some (Value.vbool true, rest)
    | 'f' :: 'a' :: 'l' :: 's' :: 'e' :: rest => some (Value.vbool false, rest)
    | 'n' :: 'u' :: 'l' :: 'l' :: rest => some (Value.null, rest)
    | s' => parseIntLit s'

/-- Members of a JSON object after the opening brace (input starts at a
key; the empty-object case is handled by `parseVal`).  Members are
accumulated with `setVal`, so a duplicate key keeps its first position
but takes the last value, as `json.loads` does. -/
def parseMembers : Nat → Str → List (Str × Value) → Option (Value × Str)
  | 0, _, _ => none
  | Nat.succ f, s, acc =>
    match s with
    | '"' :: rest =>
      (match parseStrBody rest with
       | none => none
       | some (k, r1) =>
         match skipWs r1 with
         | ':' :: r2 =>
           (match parseVal f r2 with
            | none => none
            | some (v, r3) =>
              match skipWs r3 with
              | ',' :: r4 => parseMembers f (skipWs r4) (setVal acc k v)
              | '}' :: r4 => some (Value.vdict (setVal acc k v), r4)
              | _ => none)
         | _ => none)
    | _ => none

/-- Items of a JSON array after the opening bracket (input starts at a
value; the empty-array case is handled by `parseVal`). -/
def parseItems : Nat → Str → List Value → Option (Value × Str)
  | 0, _, _ => none
  | Nat.succ f, s, acc =>
    match parseVal f s with
    | none => none
    | some (v, r) =>
      match skipWs r with
      | ',' :: r2 => parseItems f r2 (acc ++ [v])
      | ']' :: r2 => some (Value.vlist (acc ++ [v]), r2)
      | _ => none

end

/-- Model of `json.loads`: parse one value and require only whitespace to
remain. -/
def parseJson (s : Str) : Option Value :=
  match parseVal (s.length + 1) s with
  | none => none
  | some (v, rest) => if (skipWs rest).isEmpty then some v else none

example : parseJson (str " \x7b\x22a\x22: 1, \x22b\x22: [true, null]\x7d ") =
    some (Value.vdict [(str "a", Value.vint 1),
                       (str "b", Value.vlist [Value.vbool true, Value.null])]) := rfl
example : parseJson (str "\x7b\x22a\x22: 1,\x7d") = none := rfl
example : parseJson (str "\x7b'a': 1\x7d") = none := rfl
example : parseJson (str "not json") = none := rfl

/-- Characters of the regex class `[a-zA-Z0-9_]`. -/
def isWordChar (c : Char) : Bool := c.isAlpha || c.isDigit || c = '_'

/-- Does `\s*[a-zA-Z0-9_]+\s*:` match at the front of `s`?  This is the
look-ahead of the bare-key regex `([{,])\s*([a-zA-Z0-9_]+)\s*:` once the
brace or comma has been seen. -/
def keyAhead (s : Str) : Bool :=
  let s1 := skipWs s
  let w := s1.takeWhile isWordChar
  let s2 := s1.dropWhile isWordChar
  (!w.isEmpty) && (match skipWs s2 with | ':' :: _ => true | _ => false)

/-- Scanner states for the bare-key quoting pass. -/
inductive QbkMode where
  | normal : QbkMode
  | preKey : QbkMode
  | inKey : QbkMode
  | postKey : QbkMode

/-- One-character-at-a-time scanner realising
`re.sub(r'([{,])\s*([a-zA-Z0-9_]+)\s*:', r'\1"\2":', s)`: on a brace or
comma whose look-ahead matches, the whitespace is dropped, the key is
emitted inside double quotes and the colon follows; scanning resumes
after the match (a match can only start at `{` or `,`, so resuming at
the next character is equivalent to resuming after the match). -/
def qbkGo : QbkMode → Str → Str
  | _, [] => []
  | QbkMode.normal, c :: rest =>
    if (c = '{' || c = ',') && keyAhead rest then c :: '"' :: qbkGo QbkMode.preKey rest
    else c :: qbkGo QbkMode.normal rest
  | QbkMode.preKey, c :: rest =>
    if isPySpace c then qbkGo QbkMode.preKey rest
    else c :: qbkGo QbkMode.inKey rest
  | QbkMode.inKey, c :: rest =>
    if isWordChar c then c :: qbkGo QbkMode.inKey rest
    else if isPySpace c then '"' :: qbkGo QbkMode.postKey rest
    else '"' :: ':' :: qbkGo QbkMode.normal rest
  | QbkMode.postKey, c :: rest =>
    if isPySpace c then qbkGo QbkMode.postKey rest
    else ':' :: qbkGo QbkMode.normal rest

/-- `re.sub(r'([{,])\s*([a-zA-Z0-9_]+)\s*:', r'\1"\2":', s)`. -/
def quoteBareKeys (s : Str) : Str := qbkGo QbkMode.normal s

/-- Does `\s*[}\]]` match at the front of `s`? -/
def wsBracketAhead (s : Str) : Bool :=
  match skipWs s with
  | '}' :: _ => true
  | ']' :: _ => true
  | _ => false

/-- One-character-at-a-time scanner realising
`re.sub(r',\s*([}\]])', r'\1', s)`: the flag records that a matching
comma was just dropped and the following whitespace is being dropped
too, up to the closing bracket (which cannot itself start a match, so
resuming at it is equivalent to resuming after the match). -/
def stcGo : Bool → Str → Str
  | _, [] => []
  | true, c :: rest =>
    if isPySpace c then stcGo true rest else c :: stcGo false rest
  | false, c :: rest =>
    if c = ',' && wsBracketAhead rest then stcGo true rest
    else c :: stcGo false rest

/-- `re.sub(r',\s*([}\]])', r'\1', s)`. -/
def stripTrailingCommas (s : Str) : Str := stcGo false s

/-- Python `s.replace("'", '"')`. -/
def replaceQuotes (s : Str) : Str :=
  s.map (fun c => if c = Char.ofNat 39 then '"' else c)

/-- `PromptUnderstanding._fix_json_string`: normalise quote characters,
quote bare keys, strip trailing commas. -/
def fix_json_string (s : Str) : Str :=
  stripTrailingCommas (quoteBareKeys (replaceQuotes s))

/-- `re.search(r'```json\n(.*?)\n```', s, re.DOTALL)`: the first position
where the opening marker matches and a closing marker follows; the
non-greedy group runs to the nearest closing marker. -/
def fenceSearch : Str → Option Str
  | [] => none
  | c :: t =>
    if atFront (str "```json\n") (c :: t) then
      match strFind ((c :: t).drop 8) (str "\n```") with
      | some j => some (((c :: t).drop 8).take j)
      | none => fenceSearch t
    else fenceSearch t

/-- Index of the last occurrence of `b` in `s`, if any. -/
def lastIdx : Str → Char → Option Nat
  | [], _ => none
  | c :: t, b =>
    match lastIdx t b with
    | some j => some (j + 1)
    | none => if c = b then some 0 else none

/-- `re.search(r'({.*}|\[.*\])', s, re.DOTALL)`: leftmost position
carrying an opening brace/bracket with a matching closer somewhere
later; the greedy `.*` runs to the last such closer. -/
def braceScan : Str → Option Str
  | [] => none
  | c :: t =>
    if c = '{' then
      match lastIdx t '}' with
      | some j => some ('{' :: t.take (j + 1))
      | none => braceScan t
    else if c = '[' then
      match lastIdx t ']' with
      | some j => some ('[' :: t.take (j + 1))
      | none => braceScan t
    else braceScan t

/-- Fuelled scanner for `re.sub(r'```.*?```', '', s, re.DOTALL)`: at the
first triple-backtick marker the nearest closing marker is sought; if
none exists no pair can match anywhere and the rest is kept verbatim.
Fuel at least the input length makes the fuel case unreachable. -/
def rfGo : Nat → Str → Str
  | 0, s => s
  | _ + 1, [] => []
  | f + 1, c :: rest =>
    if atFront (str "```") (c :: rest) then
      match strFind ((c :: rest).drop 3) (str "```") with
      | some j => rfGo f (((c :: rest).drop 3).drop (j + 3))
      | none => c :: rest
    else c :: rfGo f rest

/-- `re.sub(r'```.*?```', '', s, re.DOTALL)`. -/
def removeFences (s : Str) : Str := rfGo (s.length + 1) s

/-- The string `_extract_json_from_response` hands to `json.loads`:
fenced block if present, else the first top-level brace/bracket span,
else the whole response; then fence-marker removal and `strip`. -/
def selectJsonStr (response : Str) : Str :=
  let json_str :=
    match fenceSearch response with
    | some g => g
    | none =>
      match braceScan response with
      | some sp => sp
      | none => response
  stripStr (removeFences json_str)

/-- `PromptUnderstanding._extract_json_from_response`: select the JSON
span, try `json.loads`, and on failure retry once on the repaired
string (`none` models the second failure raising to the caller). -/
def extract_json_from_response (response : Str) : Option Value :=
  let json_str := selectJsonStr response
  match parseJson json_str with
  | some v => some v
  | none => parseJson (fix_json_string json_str)

example : fix_json_string (str "\x7b'a': 1,\x7d") = str "\x7b\x22a\x22: 1\x7d" := rfl
example : fix_json_string (str "\x7b a : 1, b:2,\x7d") = str "\x7b\x22a\x22: 1,\x22b\x22:2\x7d" := rfl
example : extract_json_from_response (str "```json\n\x7b'x': 'y',\x7d\n```") =
    some (Value.vdict [(str "x", Value.vstr (str "y"))]) := rfl
example : extract_json_from_response (str "text \x7b\x22a\x22: true\x7d text") =
    some (Value.vdict [(str "a", Value.vbool true)]) := rfl

/-! ### Configuration validator (src/utils/configuration_validator.py) -/

/-- Python `isinstance(v, str)`. -/
def isinstanceStr : Value → Bool
  | Value.vstr _ => true
  | _ => false

/-- Python `isinstance(v, int)` (Python `bool` is a subclass of `int`). -/
def isinstanceInt : Value → Bool
  | Value.vint _ => true
  | Value.vbool _ => true
  | _ => false

/-- Python `v == True` (`True` equals the integer `1` as well). -/
def pyEqTrue : Value → Bool
  | Value.vbool b => b
  | Value.vint n => n = 1
  | _ => false

/-- Python `v == lit` against a string literal. -/
def vStrEq (v : Value) (lit : Str) : Bool :=
  match v with
  | Value.vstr s => s = lit
  | _ => false

/-- `d.get(k, "")` followed by string use.  The embedded call sites only
reach this helper with string-valued (or absent) fields — a non-string
value would raise in Python, and every such call site is guarded by an
earlier check or an enclosing handler that the claims never exercise —
so the model reads non-strings as the empty string. -/
def pyGetStrD (d : Params) (k : Str) : Str :=
  match getVal d k with
  | some (Value.vstr s) => s
  | _ => []

/-- Python `s.startswith(t)`. -/
def pyStartsWith (s t : Str) : Bool := atFront t s

/-- Result shape `{valid, errors, warnings}` of one validation pass. -/
structure PassResult where
  valid : Bool
  errors : List Value
  warnings : List Value

/-- `ConfigurationValidator._basic_validation`: required-field table and
type checks per `{service, operation_type}`; errors accumulate. -/
def basic_validation (service operation_type : Str) (parameters : Params) : PassResult :=
  let requiredErrors : List Value :=
    if service = str "ec2" && operation_type = str "create" then
      (if !truthyGet parameters (str "ImageId") && !truthyGet parameters (str "ImageDescription")
       then [Value.vstr (str "Either ImageId or ImageDescription is required")] else [])
      ++ (if !hasKey parameters (str "InstanceType")
          then [Value.vstr (str "Required parameter \x27InstanceType\x27 is missing")] else [])
    else if service = str "ec2" && operation_type = str "lifecycle" then
      (if !truthyGet parameters (str "Action")
       then [Value.vstr (str "Required parameter \x27Action\x27 is missing")] else [])
      ++ (if !truthyGet parameters (str "InstanceId") && !truthyGet parameters (str "InstanceDescription")
          then [Value.vstr (str "Either InstanceId or InstanceDescription is required")] else [])
    else if service = str "s3" && operation_type = str "create" then
      (if !truthyGet parameters (str "BucketName")
       then [Value.vstr (str "Required parameter \x27BucketName\x27 is missing")] else [])
    else []
  let typeErrors : List Value :=
    if service = str "ec2" && operation_type = str "create" then
      (match getVal parameters (str "InstanceType") with
       | some v => if isinstanceStr v then [] else [Value.vstr (str "InstanceType must be a string")]
       | none => [])
      ++ (match getVal parameters (str "MinCount") with
          | some v => if isinstanceInt v then [] else [Value.vstr (str "MinCount must be an integer")]
          | none => [])
      ++ (match getVal parameters (str "MaxCount") with
          | some v => if isinstanceInt v then [] else [Value.vstr (str "MaxCount must be an integer")]
          | none => [])
    else []
  let errors := requiredErrors ++ typeErrors
  { valid := errors.isEmpty, errors := errors, warnings := [] }

/-- `ConfigurationValidator._security_validation`: advisory checks; the
pass always reports `valid = True` ("Security issues are warnings, not
errors"). -/
def security_validation (service operation_type : Str) (parameters : Params) : PassResult :=
  let warnings : List Value :=
    if service = str "ec2" && operation_type = str "create" then
      (if !truthyGet parameters (str "SecurityGroupIds") && !truthyGet parameters (str "SecurityGroups")
       then [Value.vstr (str "No security groups specified. Default security group will be used, which may not be secure.")] else [])
      ++ (if pyEqTrue (getD parameters (str "AssociatePublicIpAddress") Value.null)
          then [Value.vstr (str "Instance will be assigned a public IP address. Ensure this is intended.")] else [])
      ++ (if !truthyGet parameters (str "KeyName")
          then [Value.vstr (str "No SSH key specified. You may not be able to access the instance via SSH.")] else [])
    else if service = str "s3" && operation_type = str "create" then
      (if vStrEq (getD parameters (str "ACL") Value.null) (str "public-read")
          || vStrEq (getD parameters (str "ACL") Value.null) (str "public-read-write")
       then [Value.vstr (str "Bucket will be publicly accessible. Ensure this is intended.")] else [])
      ++ (if !truthyGet parameters (str "BucketEncryption")
          then [Value.vstr (str "Bucket encryption not specified. Consider enabling encryption for sensitive data.")] else [])
    else []
  { valid := true, errors := [], warnings := warnings }

/-- The degraded cost record `_estimate_cost` returns when the oracle
call or the parse of its reply fails. -/
def cost_fallback : Value :=
  Value.vdict
    [(str "estimated_monthly_cost", Value.vstr (str "unknown")),
     (str "estimated_cost_range",
      Value.vdict [(str "low", Value.vstr (str "unknown")), (str "high", Value.vstr (str "unknown"))]),
     (str "cost_breakdown", Value.vlist []),
     (str "cost_saving_recommendations",
      Value.vlist [Value.vstr (str "Unable to estimate cost due to an error")])]

/-- The JSON extraction `_estimate_cost` applies to the oracle reply
(fenced block if present, else the whole reply; fence-marker removal;
strip; `json.loads` — with no repair retry). -/
def estimate_cost_parse (resp : Str) : Option Value :=
  let json_str :=
    match fenceSearch resp with
    | some g => g
    | none => resp
  parseJson (stripStr (removeFences json_str))

/-- `ConfigurationValidator._estimate_cost`.  The service, operation and
parameters only shape the oracle prompt; the oracle's reply is
abstracted into `oracle` (`none` models a failed `invoke`).  Any
failure inside the `try` yields the fallback record. -/
def estimate_cost (service operation_type : Str) (parameters : Params)
    (oracle : Option Str) : Value :=
  match oracle with
  | none => cost_fallback
  | some resp =>
    match estimate_cost_parse resp with
    | some v => v
    | none => cost_fallback

/-- `ConfigurationValidator._suggest_optimizations`. -/
def suggest_optimizations (service operation_type : Str) (parameters : Params) : List Value :=
  if service = str "ec2" && operation_type = str "create" then
    (if pyStartsWith (pyGetStrD parameters (str "InstanceType")) (str "t2.")
     then [Value.vstr (str "Consider using T3 instances instead of T2 for better price-performance ratio.")] else [])
    ++ (if !truthyGet parameters (str "EbsOptimized")
           && !(pyStartsWith (pyGetStrD parameters (str "InstanceType")) (str "t2.")
                || pyStartsWith (pyGetStrD parameters (str "InstanceType")) (str "t3."))
        then [Value.vstr (str "Consider enabling EBS optimization for better storage performance.")] else [])
    ++ (if !truthyGet parameters (str "InstanceMarketOptions")
        then [Value.vstr (str "Consider using Spot instances for non-critical workloads to reduce costs.")] else [])
  else if service = str "s3" && operation_type = str "create" then
    (if !truthyGet parameters (str "LifecycleConfiguration")
     then [Value.vstr (str "Consider adding lifecycle policies to automatically transition objects to cheaper storage classes or delete old objects.")] else [])
    ++ [Value.vstr (str "Consider using S3 Intelligent-Tiering storage class for objects with changing or unknown access patterns.")]
  else []

/-- `ConfigurationValidator.validate_configuration`: basic validation,
short-circuit on failure, then security validation, cost estimation and
optimization suggestions combined into the result dict. -/
def validate_configuration (service operation_type : Str) (parameters : Params)
    (oracle : Option Str) : Params :=
  let basic := basic_validation service operation_type parameters
  if !basic.valid then
    [(str "status", Value.vstr (str "invalid")),
     (str "message", Value.vstr (str "Configuration validation failed")),
     (str "errors", Value.vlist basic.errors),
     (str "warnings", Value.vlist basic.warnings)]
  else
    let security := security_validation service operation_type parameters
    let cost := estimate_cost service operation_type parameters oracle
    let opt := suggest_optimizations service operation_type parameters
    [(str "status", Value.vstr (if security.valid then str "valid" else str "warning")),
     (str "message", Value.vstr (str "Configuration validation completed")),
     (str "errors", Value.vlist []),
     (str "warnings", Value.vlist security.warnings),
     (str "cost_estimation", cost),
     (str "optimization_suggestions", Value.vlist opt)]

example : (basic_validation (str "ec2") (str "create") []).errors =
    [Value.vstr (str "Either ImageId or ImageDescription is required"),
     Value.vstr (str "Required parameter \x27InstanceType\x27 is missing")] := rfl
example : getVal (validate_configuration (str "ec2") (str "create")
    [(str "InstanceType", Value.vstr (str "t2.micro")),
     (str "ImageId", Value.vstr (str "ami-12345678"))] none) (str "status") =
    some (Value.vstr (str "valid")) := rfl

/-! ### EC2 create parameter resolver (src/parsers/ec2_parser.py) -/

/-- `EC2Parser._resolve_instance_type`: ordered substring matching over
the lowercased description, with `t3.micro` as the default. -/
def resolve_instance_type (parameters : Params) : Params :=
  let description := lowerStr (pyGetStrD parameters (str "InstanceTypeDescription"))
  let instanceType :=
    if strContains description (str "small") || strContains description (str "micro") then
      if strContains description (str "compute") || strContains description (str "cpu") then str "t3.micro"
      else if strContains description (str "memory") || strContains description (str "ram") then str "r5.large"
      else str "t3.micro"
    else if strContains description (str "medium") then
      if strContains description (str "compute") || strContains description (str "cpu") then str "c5.large"
      else if strContains description (str "memory") || strContains description (str "ram") then str "r5.large"
      else str "t3.medium"
    else if strContains description (str "large") then
      if strContains description (str "compute") || strContains description (str "cpu") then str "c5.xlarge"
      else if strContains description (str "memory") || strContains description (str "ram") then str "r5.xlarge"
      else str "m5.large"
    else str "t3.micro"
  setVal parameters (str "InstanceType") (Value.vstr instanceType)

/-- `EC2Parser._apply_defaults_and_transformations`: defaults for
`MinCount`/`MaxCount` when absent, instance-type resolution when
`InstanceType` is missing or falsy, and dict-form `Tags` rewritten to a
list of `{Key, Value}` records. -/
def apply_defaults_and_transformations (parameters : Params) (operation_type : Str) : Params :=
  if operation_type = str "create" then
    let p1 := if !hasKey parameters (str "MinCount")
              then setVal parameters (str "MinCount") (Value.vint 1) else parameters
    let p2 := if !hasKey p1 (str "MaxCount")
              then setVal p1 (str "MaxCount") (Value.vint 1) else p1
    let p3 := if hasKey p2 (str "InstanceTypeDescription") && !truthyGet p2 (str "InstanceType")
              then resolve_instance_type p2 else p2
    match getVal p3 (str "Tags") with
    | some (Value.vdict tags) =>
      setVal p3 (str "Tags")
        (Value.vlist (tags.map (fun kv =>
          Value.vdict [(str "Key", Value.vstr kv.1), (str "Value", kv.2)])))
    | _ => p3
  else parameters

/-! ### EC2 lifecycle parameter resolver (src/parsers/ec2_lifecycle_parser.py) -/

/-- The valid lifecycle actions. -/
def lifecycle_actions : List Str := [str "start", str "stop", str "reboot", str "terminate"]

/-- The if/elif normalisation chain of
`EC2LifecycleParser._validate_action`, applied to the already-lowercased
action. -/
def validate_action_core (action : Str) : Str :=
  if lifecycle_actions.contains action then action
  else if action = str "launch" || action = str "run" then str "start"
  else if action = str "shutdown" || action = str "halt" || action = str "pause" then str "stop"
  else if action = str "restart" then str "reboot"
  else if action = str "delete" || action = str "remove" || action = str "destroy" then str "terminate"
  else str "stop"

/-- `EC2LifecycleParser._validate_action`: lowercase the action, keep it
when valid, map the synonym groups, and default everything else to
`stop`.  `none` models the `AttributeError` Python raises when the
`Action` value is not a string. -/
def validate_action (parameters : Params) : Option Params :=
  match getD parameters (str "Action") (Value.vstr []) with
  | Value.vstr s =>
    some (setVal parameters (str "Action") (Value.vstr (validate_action_core (lowerStr s))))
  | _ => none

/-- The lifecycle action-synonym table exactly as the specification
states it (C7): `launch`/`run` → `start`; `shutdown`/`halt`/`pause` →
`stop`; `restart` → `reboot`; `delete`/`remove`/`destroy` →
`terminate`; the four canonical actions unchanged; anything else →
`stop`. -/
def spec_action_map (a : Str) : Str :=
  if a = str "launch" || a = str "run" then str "start"
  else if a = str "shutdown" || a = str "halt" || a = str "pause" then str "stop"
  else if a = str "restart" then str "reboot"
  else if a = str "delete" || a = str "remove" || a = str "destroy" then str "terminate"
  else if a = str "start" || a = str "stop" || a = str "reboot" || a = str "terminate" then a
  else str "stop"

/-! ### Service router (src/routers/service_router.py) -/

/-- The router's lifecycle keyword table (`operation_types["lifecycle"]`). -/
def router_lifecycle_keywords : List Str :=
  [str "start", str "stop", str "reboot", str "restart",
   str "terminate", str "hibernate", str "resume"]

/-- The instance-noun keywords of the proximity heuristic. -/
def router_instance_keywords : List Str := [str "instance", str "server", str "machine"]

/-- `ServiceRouter._is_lifecycle_operation`: a lifecycle keyword occurs
in the lowercased prompt and either the instance-id regex
`i-[a-z0-9]{8,17}` matches somewhere, or some instance-noun keyword
occurs within 20 characters of the first occurrence of the lifecycle
keyword. -/
def is_lifecycle_operation (prompt : Str) : Bool :=
  let prompt_lower := lowerStr prompt
  router_lifecycle_keywords.any (fun keyword =>
    strContains prompt_lower keyword &&
    (let keyword_index := pyFind prompt_lower keyword
     idSearch prompt_lower ||
     router_instance_keywords.any (fun instance_keyword =>
       let instance_index := pyFind prompt_lower instance_keyword
       (!(instance_index = -1 : Bool)) &&
         decide ((keyword_index - instance_index).natAbs < 20))))

example : is_lifecycle_operation (str "create a server") = false := by decide
example : is_lifecycle_operation (str "please start the server now") = true := by decide

/-! ### Resource agents and orchestrator (src/agents/*, src/main.py) -/

/-- Join strings with a separator. -/
def joinSep (sep : Str) : List Str → Str
  | [] => []
  | [x] => x
  | x :: xs => x ++ sep ++ joinSep sep xs

/-- Python `repr` of a value (quote escaping inside strings is not
modelled; no claim inspects rendered containers). -/
def pyRepr : Value → Str
  | Value.null => str "None"
  | Value.vstr s => Char.ofNat 39 :: (s ++ [Char.ofNat 39])
  | Value.vint n => (toString n).data
  | Value.vbool b => if b then str "True" else str "False"
  | Value.vlist l => '[' :: (joinSep (str ", ") (l.attach.map (fun x => pyRepr x.1)) ++ [']'])
  | Value.vdict d =>
    '{' :: (joinSep (str ", ")
      (d.attach.map (fun kv =>
        (Char.ofNat 39 :: (kv.1.1 ++ [Char.ofNat 39])) ++ (str ": " ++ pyRepr kv.1.2))) ++ ['}'])
decreasing_by
  · have h := List.sizeOf_lt_of_mem x.2
    simp only [Value.vlist.sizeOf_spec]
    omega
  · have h1 : sizeOf kv.1 < sizeOf d := List.sizeOf_lt_of_mem kv.2
    have h2 : sizeOf kv.1.2 < sizeOf kv.1 := by
      obtain ⟨⟨a, b⟩, hm⟩ := kv
      simp only [Prod.mk.sizeOf_spec]
      omega
    simp only [Value.vdict.sizeOf_spec]
    omega

/-- Python `str()` / f-string interpolation of a value. -/
def pyStr (v : Value) : Str :=
  match v with
  | Value.vstr s => s
  | v => pyRepr v

/-- `EC2Agent.process_prompt`, modelled from the point where the parser
has returned: a non-success parse result is passed through; otherwise
the parameters are validated and either an invalid-configuration error
or the confirmation envelope is returned.  `oracle` abstracts the
cost-estimation oracle reply consumed inside validation; a non-dict
`parameters` value would raise in Python and is modelled by the bare
error envelope (its exception text is not modelled). -/
def EC2Agent.process_prompt (parsed_result : Params) (oracle : Option Str)
    (operation_type : Str) : Params :=
  if !vStrEq (getD parsed_result (str "status") Value.null) (str "success") then
    parsed_result
  else
    match getD parsed_result (str "parameters") (Value.vdict []) with
    | Value.vdict parameters =>
      let validation_result := validate_configuration (str "ec2") operation_type parameters oracle
      if vStrEq (getD validation_result (str "status") Value.null) (str "invalid") then
        [(str "status", Value.vstr (str "error")),
         (str "message", Value.vstr (str "Invalid configuration")),
         (str "errors", getD validation_result (str "errors") (Value.vlist [])),
         (str "warnings", getD validation_result (str "warnings") (Value.vlist []))]
      else
        [(str "status", Value.vstr (str "success")),
         (str "message", Value.vstr (str "EC2 configuration parsed and validated")),
         (str "service", Value.vstr (str "ec2")),
         (str "operation_type", Value.vstr operation_type),
         (str "parameters", Value.vdict parameters),
         (str "validation", Value.vdict validation_result),
         (str "requires_confirmation", Value.vbool true)]
    | _ => [(str "status", Value.vstr (str "error"))]

/-- `EC2LifecycleAgent.process_prompt`, modelled from the point where the
parser has returned; the validator is called with the literal pair
`("ec2", "lifecycle")` and the envelope carries them hardcoded. -/
def EC2LifecycleAgent.process_prompt (parsed_result : Params) (oracle : Option Str) : Params :=
  if !vStrEq (getD parsed_result (str "status") Value.null) (str "success") then
    parsed_result
  else
    match getD parsed_result (str "parameters") (Value.vdict []) with
    | Value.vdict parameters =>
      let validation_result := validate_configuration (str "ec2") (str "lifecycle") parameters oracle
      if vStrEq (getD validation_result (str "status") Value.null) (str "invalid") then
        [(str "status", Value.vstr (str "error")),
         (str "message", Value.vstr (str "Invalid configuration")),
         (str "errors", getD validation_result (str "errors") (Value.vlist [])),
         (str "warnings", getD validation_result (str "warnings") (Value.vlist []))]
      else
        [(str "status", Value.vstr (str "success")),
         (str "message", Value.vstr (str "EC2 lifecycle operation parsed and validated")),
         (str "service", Value.vstr (str "ec2")),
         (str "operation_type", Value.vstr (str "lifecycle")),
         (str "parameters", Value.vdict parameters),
         (str "validation", Value.vdict validation_result),
         (str "requires_confirmation", Value.vbool true)]
    | _ => [(str "status", Value.vstr (str "error"))]

/-- `EC2Agent.execute_operation`.  `createReply` abstracts the provider
call `create_ec2_instance` (error = a raised exception); the second
component counts provider calls. -/
def EC2Agent.execute_operation (createReply : Except Str Value)
    (operation_details : Params) : Params × Nat :=
  let operation_type := getD operation_details (str "operation_type") (Value.vstr (str "create"))
  if vStrEq operation_type (str "create") then
    match createReply with
    | Except.ok r =>
      ([(str "status", Value.vstr (str "success")),
        (str "message", Value.vstr (str "EC2 instance created successfully")),
        (str "result", r)], 1)
    | Except.error e =>
      ([(str "status", Value.vstr (str "error")),
        (str "message", Value.vstr (str "Failed to execute EC2 operation: " ++ e)),
        (str "error", Value.vstr e)], 1)
  else
    ([(str "status", Value.vstr (str "error")),
      (str "message", Value.vstr (str "Unsupported operation type: " ++ pyStr operation_type))], 0)

/-- Provider replies for the four lifecycle calls. -/
structure LifecycleReplies where
  start : Except Str Value
  stop : Except Str Value
  reboot : Except Str Value
  terminate : Except Str Value

/-- `EC2LifecycleAgent.execute_operation`.  The `Except` layer models the
exceptions the pre-`try` extraction can raise (`.get` on a non-dict
`parameters`, `.lower()` on a non-string action); the counter counts
provider calls. -/
def EC2LifecycleAgent.execute_operation (prov : LifecycleReplies)
    (operation_details : Params) : Except Str (Params × Nat) :=
  match getD operation_details (str "parameters") (Value.vdict []) with
  | Value.vdict parameters =>
    match getD parameters (str "Action") (Value.vstr []) with
    | Value.vstr a =>
      let action := lowerStr a
      let instance_id := getVal parameters (str "InstanceId")
      let wrap : Except Str Value → Params × Nat := fun reply =>
        match reply with
        | Except.ok r =>
          ([(str "status", Value.vstr (str "success")),
            (str "message", Value.vstr ((str "EC2 instance " ++ action)
              ++ str " operation completed successfully")),
            (str "result", r)], 1)
        | Except.error e =>
          ([(str "status", Value.vstr (str "error")),
            (str "message", Value.vstr (str "Failed to execute EC2 lifecycle operation: " ++ e)),
            (str "error", Value.vstr e)], 1)
      Except.ok
        (if !(match instance_id with | none => false | some v => truthy v) then
          ([(str "status", Value.vstr (str "error")),
            (str "message", Value.vstr (str "Instance ID is required for lifecycle operations"))], 0)
        else if action = str "start" then wrap prov.start
        else if action = str "stop" then wrap prov.stop
        else if action = str "reboot" then wrap prov.reboot
        else if action = str "terminate" then wrap prov.terminate
        else
          ([(str "status", Value.vstr (str "error")),
            (str "message", Value.vstr (str "Unsupported action: " ++ action))], 0))
    | _ => Except.error (str "AttributeError")
  | _ => Except.error (str "AttributeError")

/-- `ServiceRouter.execute_operation`: look up the agent registered
under the envelope's `service` field (`"ec2"` → the create agent,
`"ec2_lifecycle"` → the lifecycle agent) and delegate; exceptions from
the agent are caught and wrapped.  The counter counts provider calls. -/
def ServiceRouter.execute_operation (createReply : Except Str Value)
    (prov : LifecycleReplies) (operation_details : Params) : Params × Nat :=
  let service := getD operation_details (str "service") (Value.vstr (str "unknown"))
  if vStrEq service (str "ec2") then
    EC2Agent.execute_operation createReply operation_details
  else if vStrEq service (str "ec2_lifecycle") then
    match EC2LifecycleAgent.execute_operation prov operation_details with
    | Except.ok r => r
    | Except.error e =>
      ([(str "status", Value.vstr (str "error")),
        (str "message", Value.vstr ((str "Error executing operation with "
          ++ pyStr service) ++ (str " agent: " ++ e))),
        (str "error", Value.vstr e)], 0)
  else
    ([(str "status", Value.vstr (str "error")),
      (str "message", Value.vstr (str "No agent available for service: " ++ pyStr service))], 0)

/-- `DevOpsAgent.confirm_operation`. -/
def DevOpsAgent.confirm_operation (operation_details : Params) : Params :=
  [(str "status", Value.vstr (str "confirmation_required")),
   (str "operation", Value.vdict operation_details),
   (str "message", Value.vstr (str "Please confirm this operation before proceeding."))]

/-- Outcome of the orchestrator's execute step, instrumented with how
many times the router's execute path ran and how many provider calls
were made. -/
structure ExecOutcome where
  result : Params
  routerCalls : Nat
  providerCalls : Nat

/-- `DevOpsAgent.execute_operation`: without the external confirmation
flag the operation details are bounced back through
`confirm_operation`; only with `confirmed = True` is the router's
execute path invoked. -/
def DevOpsAgent.execute_operation (routerExec : Params → Params × Nat)
    (operation_details : Params) (confirmed : Bool) : ExecOutcome :=
  if !confirmed then
    { result := DevOpsAgent.confirm_operation operation_details,
      routerCalls := 0, providerCalls := 0 }
  else
    let r := routerExec operation_details
    { result := r.1, routerCalls := 1, providerCalls := r.2 }

/-! ### Input families and sample data for the claims -/

/-- Lookup in a dict-shaped value. -/
def dGet (v : Value) (k : Str) : Option Value :=
  match v with
  | Value.vdict d => getVal d k
  | _ => none

/-- The single-quote character. -/
def squo : Char := Char.ofNat 39

/-- Characters admitted in the keys and values of the C8 input family:
lowercase letters, digits, space, hyphen, dot and underscore.  They are
inert for every scanner involved (no quotes, braces, brackets, commas,
colons, backslashes, backticks or newlines). -/
def okChar (c : Char) : Bool :=
  c.isLower || c.isDigit || c = ' ' || c = '-' || c = '.' || c = '_'

/-- All characters of a string are admissible. -/
def okStr (s : Str) : Prop := ∀ c ∈ s, okChar c = true

/-- A key/value pair of the single-quoted oracle-output family. -/
structure SQPair where
  key : Str
  val : Str
  deriving DecidableEq

/-- `'key': 'value'` with single quotes. -/
def renderSQPair (p : SQPair) : Str :=
  squo :: (p.key ++ (squo :: (str ": " ++ (squo :: (p.val ++ [squo])))))

/-- `{'k1': 'v1', 'k2': 'v2',}` — a single-quoted object with a
trailing comma. -/
def renderSQBody (ps : List SQPair) : Str :=
  '{' :: (joinSep (str ", ") (ps.map renderSQPair) ++ str ",\x7d")

/-- The full oracle response: the object wrapped in a fenced code
block. -/
def fencedResponse (ps : List SQPair) : Str :=
  str "```json\n" ++ (renderSQBody ps ++ str "\n```")

/-- `"key": "value"` — the double-quoted form after quote
normalisation. -/
def renderDQPair (p : SQPair) : Str :=
  '"' :: (p.key ++ ('"' :: (str ": " ++ ('"' :: (p.val ++ ['"'])))))

/-- The object after quote normalisation, still with the trailing
comma. -/
def renderDQBody (ps : List SQPair) : Str :=
  '{' :: (joinSep (str ", ") (ps.map renderDQPair) ++ str ",\x7d")

/-- The repaired object: double quotes, no trailing comma. -/
def renderFinalBody (ps : List SQPair) : Str :=
  '{' :: (joinSep (str ", ") (ps.map renderDQPair) ++ ['}'])

/-- The structured value a single-quoted object denotes. -/
def intendedValue (ps : List SQPair) : Value :=
  Value.vdict (ps.map (fun p => (p.key, Value.vstr p.val)))

/-- No position of `s` starts a match of the bare-key regex
`([{,])\s*([a-zA-Z0-9_]+)\s*:`. -/
def TriggerFree : Str → Prop
  | [] => True
  | c :: rest => ¬((c = '{' ∨ c = ',') ∧ keyAhead rest = true) ∧ TriggerFree rest

/-- A complete EC2-create ParameterSet used as sample input. -/
def sampleCreateParams : Params :=
  [(str "InstanceType", Value.vstr (str "t2.micro")),
   (str "ImageId", Value.vstr (str "ami-12345678"))]

/-- A ParameterSet whose `InstanceType` is present but empty: the
resolver treats it as absent and overwrites it. -/
def c9params : Params :=
  [(str "MinCount", Value.vint 1),
   (str "MaxCount", Value.vint 1),
   (str "InstanceType", Value.vstr []),
   (str "InstanceTypeDescription", Value.vstr (str "small")),
   (str "Tags", Value.vlist [])]

/-! ### Helper lemmas -/

theorem getVal_head (k : Str) (v : Value) (rest : Params) :
    getVal ((k, v) :: rest) k = some v := by
  simp [getVal]

theorem getVal_tail {k k' : Str} (h : k' ≠ k) (v : Value) (rest : Params) :
    getVal ((k', v) :: rest) k = getVal rest k := by
  simp [getVal, h]

theorem getVal_setVal_self (d : Params) (k : Str) (v : Value) :
    getVal (setVal d k v) k = some v := by
  induction d with
  | nil => simp [setVal, getVal]
  | cons kv rest ih =>
    by_cases h : kv.1 = k
    · obtain ⟨k', v'⟩ := kv
      simp only at h
      simp [setVal, getVal, h]
    · obtain ⟨k', v'⟩ := kv
      simp only at h
      simp [setVal, getVal, h, ih]

theorem getVal_setVal_ne (d : Params) {k k' : Str} (h : k ≠ k') (v : Value) :
    getVal (setVal d k v) k' = getVal d k' := by
  induction d with
  | nil => simp [setVal, getVal, h]
  | cons kv rest ih =>
    obtain ⟨k0, v0⟩ := kv
    by_cases h2 : k0 = k
    · simp [setVal, getVal, h2, h]
    · by_cases h3 : k0 = k'
      · simp [setVal, getVal, h2, h3, Ne.symm h]
      · simp [setVal, getVal, h2, h3, ih]

theorem truthyGet_setVal_ne (d : Params) {k k' : Str} (h : k ≠ k') (v : Value) :
    truthyGet (setVal d k v) k' = truthyGet d k' := by
  simp [truthyGet, getVal_setVal_ne d h v]

theorem hasKey_setVal_ne (d : Params) {k k' : Str} (h : k ≠ k') (v : Value) :
    hasKey (setVal d k v) k' = hasKey d k' := by
  simp [hasKey, getVal_setVal_ne d h v]

theorem setVal_eq_append (d : Params) (k : Str) (v : Value) (h : hasKey d k = false) :
    setVal d k v = d ++ [(k, v)] := by
  induction d with
  | nil => simp [setVal]
  | cons kv rest ih =>
    obtain ⟨k0, v0⟩ := kv
    by_cases h1 : k0 = k
    · simp [hasKey, getVal, h1] at h
    · simp [hasKey, getVal, h1] at h
      simp [setVal, h1]
      exact ih (by simp [hasKey, h])

theorem some_vstr_ne {a b : Str} (h : a ≠ b) :
    (some (Value.vstr a) : Option Value) ≠ some (Value.vstr b) := by
  intro he
  injection he with h1
  injection h1 with h2
  exact h h2

theorem security_validation_valid (service operation_type : Str) (parameters : Params) :
    (security_validation service operation_type parameters).valid = true := rfl

theorem basic_validation_valid_iff (service operation_type : Str) (parameters : Params) :
    (basic_validation service operation_type parameters).valid
      = (basic_validation service operation_type parameters).errors.isEmpty := rfl

theorem validate_configuration_invalid {service operation_type : Str} {parameters : Params}
    (oracle : Option Str)
    (h : (basic_validation service operation_type parameters).errors ≠ []) :
    validate_configuration service operation_type parameters oracle =
      [(str "status", Value.vstr (str "invalid")),
       (str "message", Value.vstr (str "Configuration validation failed")),
       (str "errors", Value.vlist (basic_validation service operation_type parameters).errors),
       (str "warnings", Value.vlist (basic_validation service operation_type parameters).warnings)] := by
  have hv : (basic_validation service operation_type parameters).valid = false := by
    rw [basic_validation_valid_iff]
    cases hE : (basic_validation service operation_type parameters).errors with
    | nil => exact absurd hE h
    | cons a l => rfl
  simp [validate_configuration, hv]

theorem validate_configuration_ok {service operation_type : Str} {parameters : Params}
    (oracle : Option Str)
    (h : (basic_validation service operation_type parameters).errors = []) :
    validate_configuration service operation_type parameters oracle =
      [(str "status", Value.vstr (str "valid")),
       (str "message", Value.vstr (str "Configuration validation completed")),
       (str "errors", Value.vlist []),
       (str "warnings", Value.vlist (security_validation service operation_type parameters).warnings),
       (str "cost_estimation", estimate_cost service operation_type parameters oracle),
       (str "optimization_suggestions",
        Value.vlist (suggest_optimizations service operation_type parameters))] := by
  have hv : (basic_validation service operation_type parameters).valid = true := by
    rw [basic_validation_valid_iff, h]
    rfl
  simp [validate_configuration, hv, security_validation_valid]

/-! ### Claim theorems -/

/-- C1, counterexample: on a clean EC2-create ParameterSet the security
pass produces warnings, yet `validate_configuration` reports status
`valid` (never `warning`), contradicting the claim that any security
warning yields status `warning`. -/
theorem claim_C1_counterexample :
    (security_validation (str "ec2") (str "create") sampleCreateParams).warnings ≠ []
    ∧ getVal (validate_configuration (str "ec2") (str "create") sampleCreateParams none)
        (str "status") = some (Value.vstr (str "valid")) := by
  constructor
  · rw [show (security_validation (str "ec2") (str "create") sampleCreateParams).warnings
        = [Value.vstr (str "No security groups specified. Default security group will be used, which may not be secure."),
           Value.vstr (str "No SSH key specified. You may not be able to access the instance via SSH.")] from rfl]
    exact List.cons_ne_nil _ _
  · rfl

/-- C1 (amended): for every `{service, operation_type}`, ParameterSet
and cost-oracle reply, `validate_configuration` returns status
`invalid` exactly when basic validation produced at least one error;
otherwise it always returns status `valid`, even when security
validation produced warnings (the `warning` status is unreachable
because the security pass always reports `valid = True`); the
cost-estimation output and optimization suggestions never change the
status. -/
theorem claim_C1 (service operation_type : Str) (parameters : Params)
    (oracle oracle' : Option Str) :
    (getVal (validate_configuration service operation_type parameters oracle) (str "status")
        = some (Value.vstr (str "invalid"))
      ↔ (basic_validation service operation_type parameters).errors ≠ [])
    ∧ ((basic_validation service operation_type parameters).errors = [] →
        getVal (validate_configuration service operation_type parameters oracle) (str "status")
          = some (Value.vstr (str "valid")))
    ∧ getVal (validate_configuration service operation_type parameters oracle) (str "status")
        = getVal (validate_configuration service operation_type parameters oracle') (str "status") := by
  by_cases h : (basic_validation service operation_type parameters).errors = []
  · rw [validate_configuration_ok oracle h, validate_configuration_ok oracle' h]
    refine ⟨?_, fun _ => getVal_head _ _ _, rfl⟩
    constructor
    · intro hst
      rw [getVal_head] at hst
      exact absurd hst (some_vstr_ne (by decide))
    · intro hne
      exact absurd h hne
  · rw [validate_configuration_invalid oracle h, validate_configuration_invalid oracle' h]
    refine ⟨?_, fun he => absurd he h, rfl⟩
    constructor
    · intro _
      exact h
    · intro _
      exact getVal_head _ _ _

/-- C1, witness for the amended theorem at a concrete clean input. -/
theorem claim_C1_witness :
    getVal (validate_configuration (str "ec2") (str "create") sampleCreateParams none)
      (str "status") = some (Value.vstr (str "valid")) :=
  (claim_C1 (str "ec2") (str "create") sampleCreateParams none (some (str "x"))).2.1 rfl

/-- C2: calling the orchestrator's `execute_operation` without the
external confirmation flag performs no execution step — the router's
execute path runs zero times, no provider call is made, and the result
is the `confirmation_required` envelope. -/
theorem claim_C2 (routerExec : Params → Params × Nat) (operation_details : Params) :
    (DevOpsAgent.execute_operation routerExec operation_details false).routerCalls = 0
    ∧ (DevOpsAgent.execute_operation routerExec operation_details false).providerCalls = 0
    ∧ getVal (DevOpsAgent.execute_operation routerExec operation_details false).result
        (str "status") = some (Value.vstr (str "confirmation_required")) :=
  ⟨rfl, rfl, rfl⟩

theorem validate_action_core_eq_spec (a : Str) :
    validate_action_core a = spec_action_map a := by
  by_cases h1 : a = str "launch"
  · subst h1; decide
  by_cases h2 : a = str "run"
  · subst h2; decide
  by_cases h3 : a = str "shutdown"
  · subst h3; decide
  by_cases h4 : a = str "halt"
  · subst h4; decide
  by_cases h5 : a = str "pause"
  · subst h5; decide
  by_cases h6 : a = str "restart"
  · subst h6; decide
  by_cases h7 : a = str "delete"
  · subst h7; decide
  by_cases h8 : a = str "remove"
  · subst h8; decide
  by_cases h9 : a = str "destroy"
  · subst h9; decide
  by_cases h10 : a = str "start"
  · subst h10; decide
  by_cases h11 : a = str "stop"
  · subst h11; decide
  by_cases h12 : a = str "reboot"
  · subst h12; decide
  by_cases h13 : a = str "terminate"
  · subst h13; decide
  have hm : a ∉ lifecycle_actions := by
    simp [lifecycle_actions, h10, h11, h12, h13]
  have hc : lifecycle_actions.contains a = false := by
    simp [List.contains, List.elem_eq_mem, hm]
  simp [validate_action_core, spec_action_map, hc, hm,
    h1, h2, h3, h4, h5, h6, h7, h8, h9, h10, h11, h12, h13]

/-- C5: when the cost-estimation oracle call fails or its reply cannot
be parsed, `_estimate_cost` returns (rather than raising) the degraded
record: `estimated_monthly_cost = "unknown"`, an empty
`cost_breakdown`, and a non-empty `cost_saving_recommendations` list —
the single recommendation noting the failure. -/
theorem claim_C5 (service operation_type : Str) (parameters : Params) (oracle : Option Str)
    (h : oracle = none ∨ ∃ resp, oracle = some resp ∧ estimate_cost_parse resp = none) :
    estimate_cost service operation_type parameters oracle = cost_fallback
    ∧ dGet (estimate_cost service operation_type parameters oracle)
        (str "estimated_monthly_cost") = some (Value.vstr (str "unknown"))
    ∧ dGet (estimate_cost service operation_type parameters oracle)
        (str "cost_breakdown") = some (Value.vlist [])
    ∧ ∃ recs, dGet (estimate_cost service operation_type parameters oracle)
        (str "cost_saving_recommendations") = some (Value.vlist recs) ∧ recs ≠ [] := by
  have hf : estimate_cost service operation_type parameters oracle = cost_fallback := by
    rcases h with h | ⟨resp, ho, hp⟩
    · rw [h]
      rfl
    · rw [ho]
      simp [estimate_cost, hp]
  refine ⟨hf, ?_, ?_, ?_⟩
  · rw [hf]
    rfl
  · rw [hf]
    rfl
  · rw [hf]
    exact ⟨_, rfl, List.cons_ne_nil _ _⟩

/-- C5, witness: a reply that is not parseable JSON yields the fallback
record. -/
theorem claim_C5_witness :
    estimate_cost (str "ec2") (str "create") sampleCreateParams (some (str "oops"))
      = cost_fallback :=
  (claim_C5 (str "ec2") (str "create") sampleCreateParams (some (str "oops"))
    (Or.inr ⟨str "oops", rfl, rfl⟩)).1

/-- C7: for every `Action` string (and for an absent action, which the
code reads as the empty string), the lifecycle action normaliser
lowercases it and maps it exactly as the specification's synonym table
says: `launch`/`run` → `start`, `shutdown`/`halt`/`pause` → `stop`,
`restart` → `reboot`, `delete`/`remove`/`destroy` → `terminate`,
canonical actions unchanged, everything else → `stop`. -/
theorem claim_C7 (parameters : Params) (s : Str)
    (hs : getD parameters (str "Action") (Value.vstr []) = Value.vstr s) :
    validate_action parameters
      = some (setVal parameters (str "Action") (Value.vstr (spec_action_map (lowerStr s))))
    ∧ getVal (setVal parameters (str "Action") (Value.vstr (spec_action_map (lowerStr s))))
        (str "Action") = some (Value.vstr (spec_action_map (lowerStr s))) := by
  constructor
  · unfold validate_action
    rw [hs]
    exact congrArg (fun x => some (setVal parameters (str "Action") (Value.vstr x)))
      (validate_action_core_eq_spec (lowerStr s))
  · exact getVal_setVal_self _ _ _

/-- C7, witness: `"Shutdown"` is normalised (case-insensitively) to
`"stop"`. -/
theorem claim_C7_witness :
    validate_action [(str "Action", Value.vstr (str "Shutdown"))]
      = some [(str "Action", Value.vstr (str "stop"))] := by
  have h := (claim_C7 [(str "Action", Value.vstr (str "Shutdown"))] (str "Shutdown") rfl).1
  rw [h]
  rfl

/-- C10: on the prompt `"Stop the EC2 instance with ID
i-1234567890abcdef0"` the rule-based lifecycle check returns true (the
keyword `stop` is present and the instance-id pattern matches), and the
lifecycle action normaliser resolves the extracted action to `stop`. -/
theorem claim_C10 :
    is_lifecycle_operation (str "Stop the EC2 instance with ID i-1234567890abcdef0") = true
    ∧ strContains (lowerStr (str "Stop the EC2 instance with ID i-1234567890abcdef0"))
        (str "stop") = true
    ∧ idSearch (lowerStr (str "Stop the EC2 instance with ID i-1234567890abcdef0")) = true
    ∧ validate_action [(str "Action", Value.vstr (str "Stop"))]
        = some [(str "Action", Value.vstr (str "stop"))] :=
  ⟨by decide, by decide, by decide, rfl⟩

theorem ec2_process_prompt_envelope {parsed_result parameters : Params} {oracle : Option Str}
    {operation_type : Str}
    (hstatus : getD parsed_result (str "status") Value.null = Value.vstr (str "success"))
    (hparams : getD parsed_result (str "parameters") (Value.vdict []) = Value.vdict parameters)
    (hb : (basic_validation (str "ec2") operation_type parameters).errors = []) :
    EC2Agent.process_prompt parsed_result oracle operation_type =
      [(str "status", Value.vstr (str "success")),
       (str "message", Value.vstr (str "EC2 configuration parsed and validated")),
       (str "service", Value.vstr (str "ec2")),
       (str "operation_type", Value.vstr operation_type),
       (str "parameters", Value.vdict parameters),
       (str "validation",
        Value.vdict (validate_configuration (str "ec2") operation_type parameters oracle)),
       (str "requires_confirmation", Value.vbool true)] := by
  have hok := @validate_configuration_ok (str "ec2") operation_type parameters oracle hb
  simp only [EC2Agent.process_prompt, hstatus, hparams, hok]
  rfl

theorem lifecycle_process_prompt_envelope {parsed_result parameters : Params} {oracle : Option Str}
    (hstatus : getD parsed_result (str "status") Value.null = Value.vstr (str "success"))
    (hparams : getD parsed_result (str "parameters") (Value.vdict []) = Value.vdict parameters)
    (hb : (basic_validation (str "ec2") (str "lifecycle") parameters).errors = []) :
    EC2LifecycleAgent.process_prompt parsed_result oracle =
      [(str "status", Value.vstr (str "success")),
       (str "message", Value.vstr (str "EC2 lifecycle operation parsed and validated")),
       (str "service", Value.vstr (str "ec2")),
       (str "operation_type", Value.vstr (str "lifecycle")),
       (str "parameters", Value.vdict parameters),
       (str "validation",
        Value.vdict (validate_configuration (str "ec2") (str "lifecycle") parameters oracle)),
       (str "requires_confirmation", Value.vbool true)] := by
  have hok := @validate_configuration_ok (str "ec2") (str "lifecycle") parameters oracle hb
  simp only [EC2LifecycleAgent.process_prompt, hstatus, hparams, hok]
  rfl

theorem validate_status_invalid_of_errors {service operation_type : Str} {parameters : Params}
    (oracle : Option Str)
    (h : (basic_validation service operation_type parameters).errors ≠ []) :
    getVal (validate_configuration service operation_type parameters oracle) (str "status")
      = some (Value.vstr (str "invalid")) := by
  rw [validate_configuration_invalid oracle h]
  rfl

/-- C4: whenever extraction succeeded (a success parse result carrying a
parameter dict) and the validation status is not `invalid`, both
resource agents return an envelope with `requires_confirmation = true`
and status `success` — confirmation is unconditional, whether the
validation status is `valid` or `warning`. -/
theorem claim_C4 (parsed_result parameters : Params) (oracle : Option Str)
    (operation_type : Str)
    (hstatus : getD parsed_result (str "status") Value.null = Value.vstr (str "success"))
    (hparams : getD parsed_result (str "parameters") (Value.vdict []) = Value.vdict parameters) :
    (getVal (validate_configuration (str "ec2") operation_type parameters oracle) (str "status")
        ≠ some (Value.vstr (str "invalid")) →
      getVal (EC2Agent.process_prompt parsed_result oracle operation_type)
          (str "requires_confirmation") = some (Value.vbool true)
      ∧ getVal (EC2Agent.process_prompt parsed_result oracle operation_type) (str "status")
          = some (Value.vstr (str "success")))
    ∧ (getVal (validate_configuration (str "ec2") (str "lifecycle") parameters oracle)
          (str "status") ≠ some (Value.vstr (str "invalid")) →
      getVal (EC2LifecycleAgent.process_prompt parsed_result oracle)
          (str "requires_confirmation") = some (Value.vbool true)
      ∧ getVal (EC2LifecycleAgent.process_prompt parsed_result oracle) (str "status")
          = some (Value.vstr (str "success"))) := by
  constructor
  · intro hvalid
    by_cases hb : (basic_validation (str "ec2") operation_type parameters).errors = []
    · rw [ec2_process_prompt_envelope hstatus hparams hb]
      exact ⟨rfl, rfl⟩
    · exact absurd (validate_status_invalid_of_errors oracle hb) hvalid
  · intro hvalid
    by_cases hb : (basic_validation (str "ec2") (str "lifecycle") parameters).errors = []
    · rw [lifecycle_process_prompt_envelope hstatus hparams hb]
      exact ⟨rfl, rfl⟩
    · exact absurd (validate_status_invalid_of_errors oracle hb) hvalid

/-- C4, witness: the spec's end-to-end example parameters flow through
the create agent into a `requires_confirmation = true` envelope. -/
theorem claim_C4_witness :
    getVal (EC2Agent.process_prompt
        [(str "status", Value.vstr (str "success")),
         (str "parameters", Value.vdict sampleCreateParams)] none (str "create"))
      (str "requires_confirmation") = some (Value.vbool true) :=
  ((claim_C4 [(str "status", Value.vstr (str "success")),
              (str "parameters", Value.vdict sampleCreateParams)]
      sampleCreateParams none (str "create") rfl rfl).1
    (by
      rw [show getVal (validate_configuration (str "ec2") (str "create") sampleCreateParams none)
            (str "status") = some (Value.vstr (str "valid")) from rfl]
      exact some_vstr_ne (by decide))).1

/-- C3: a success envelope from the EC2 lifecycle agent carries
`service = "ec2"` and `operation_type = "lifecycle"`; the router's
execute path dispatches on the `service` field alone, reaching the
create agent registered under `"ec2"`, which rejects the operation with
`"Unsupported operation type: lifecycle"` and makes no provider call —
so confirmed lifecycle operations are never executed. -/
theorem claim_C3 (parsed_result parameters operation_details : Params) (oracle : Option Str)
    (createReply : Except Str Value) (prov : LifecycleReplies)
    (hstatus : getD parsed_result (str "status") Value.null = Value.vstr (str "success"))
    (hparams : getD parsed_result (str "parameters") (Value.vdict []) = Value.vdict parameters)
    (hb : (basic_validation (str "ec2") (str "lifecycle") parameters).errors = [])
    (hdservice : getVal operation_details (str "service") = some (Value.vstr (str "ec2")))
    (hdop : getVal operation_details (str "operation_type")
      = some (Value.vstr (str "lifecycle"))) :
    (getVal (EC2LifecycleAgent.process_prompt parsed_result oracle) (str "service")
        = some (Value.vstr (str "ec2"))
      ∧ getVal (EC2LifecycleAgent.process_prompt parsed_result oracle) (str "operation_type")
        = some (Value.vstr (str "lifecycle")))
    ∧ ((ServiceRouter.execute_operation createReply prov operation_details).2 = 0
      ∧ getVal (ServiceRouter.execute_operation createReply prov operation_details).1
          (str "status") = some (Value.vstr (str "error"))
      ∧ getVal (ServiceRouter.execute_operation createReply prov operation_details).1
          (str "message")
        = some (Value.vstr (str "Unsupported operation type: lifecycle"))) := by
  constructor
  · rw [lifecycle_process_prompt_envelope hstatus hparams hb]
    exact ⟨rfl, rfl⟩
  · have h1 : getD operation_details (str "service") (Value.vstr (str "unknown"))
        = Value.vstr (str "ec2") := by
      simp [getD, hdservice]
    have h2 : getD operation_details (str "operation_type") (Value.vstr (str "create"))
        = Value.vstr (str "lifecycle") := by
      simp [getD, hdop]
    have hroute : ServiceRouter.execute_operation createReply prov operation_details
        = ([(str "status", Value.vstr (str "error")),
            (str "message",
             Value.vstr (str "Unsupported operation type: " ++ pyStr (Value.vstr (str "lifecycle"))))],
           0) := by
      simp only [ServiceRouter.execute_operation, EC2Agent.execute_operation, h1, h2]
      rfl
    rw [hroute]
    exact ⟨rfl, rfl, rfl⟩

/-- C3, witness: a concrete confirmed lifecycle envelope is rejected by
the router's execute path with zero provider calls. -/
theorem claim_C3_witness :
    (ServiceRouter.execute_operation (Except.ok Value.null)
        ⟨Except.ok Value.null, Except.ok Value.null, Except.ok Value.null, Except.ok Value.null⟩
        [(str "service", Value.vstr (str "ec2")),
         (str "operation_type", Value.vstr (str "lifecycle"))]).2 = 0
    ∧ getVal (ServiceRouter.execute_operation (Except.ok Value.null)
        ⟨Except.ok Value.null, Except.ok Value.null, Except.ok Value.null, Except.ok Value.null⟩
        [(str "service", Value.vstr (str "ec2")),
         (str "operation_type", Value.vstr (str "lifecycle"))]).1 (str "message")
      = some (Value.vstr (str "Unsupported operation type: lifecycle")) := by
  obtain ⟨-, hB⟩ := claim_C3
    [(str "status", Value.vstr (str "success")),
     (str "parameters",
      Value.vdict [(str "Action", Value.vstr (str "stop")),
                   (str "InstanceId", Value.vstr (str "i-1234567890abcdef0"))])]
    [(str "Action", Value.vstr (str "stop")),
     (str "InstanceId", Value.vstr (str "i-1234567890abcdef0"))]
    [(str "service", Value.vstr (str "ec2")),
     (str "operation_type", Value.vstr (str "lifecycle"))]
    none (Except.ok Value.null)
    ⟨Except.ok Value.null, Except.ok Value.null, Except.ok Value.null, Except.ok Value.null⟩
    rfl rfl rfl rfl rfl
  exact ⟨hB.1, hB.2.2⟩

theorem isEmpty_false_of_ne_nil {l : List Value} (h : l ≠ []) : l.isEmpty = false := by
  cases l with
  | nil => exact absurd rfl h
  | cons a t => rfl

/-- C6: for each of the three known `{service, operation_type}` pairs,
a ParameterSet missing one or more required fields makes basic
validation report `valid = false`, and the errors list carries one
entry for every missing required field (not only the first one). -/
theorem claim_C6 (parameters : Params) :
    (((truthyGet parameters (str "ImageId") = false
        ∧ truthyGet parameters (str "ImageDescription") = false)
       ∨ hasKey parameters (str "InstanceType") = false) →
      (basic_validation (str "ec2") (str "create") parameters).valid = false
      ∧ ((truthyGet parameters (str "ImageId") = false
          ∧ truthyGet parameters (str "ImageDescription") = false) →
          Value.vstr (str "Either ImageId or ImageDescription is required")
            ∈ (basic_validation (str "ec2") (str "create") parameters).errors)
      ∧ (hasKey parameters (str "InstanceType") = false →
          Value.vstr (str "Required parameter \x27InstanceType\x27 is missing")
            ∈ (basic_validation (str "ec2") (str "create") parameters).errors))
    ∧ ((truthyGet parameters (str "Action") = false
       ∨ (truthyGet parameters (str "InstanceId") = false
          ∧ truthyGet parameters (str "InstanceDescription") = false)) →
      (basic_validation (str "ec2") (str "lifecycle") parameters).valid = false
      ∧ (truthyGet parameters (str "Action") = false →
          Value.vstr (str "Required parameter \x27Action\x27 is missing")
            ∈ (basic_validation (str "ec2") (str "lifecycle") parameters).errors)
      ∧ ((truthyGet parameters (str "InstanceId") = false
          ∧ truthyGet parameters (str "InstanceDescription") = false) →
          Value.vstr (str "Either InstanceId or InstanceDescription is required")
            ∈ (basic_validation (str "ec2") (str "lifecycle") parameters).errors))
    ∧ (truthyGet parameters (str "BucketName") = false →
      (basic_validation (str "s3") (str "create") parameters).valid = false
      ∧ Value.vstr (str "Required parameter \x27BucketName\x27 is missing")
          ∈ (basic_validation (str "s3") (str "create") parameters).errors) := by
  refine ⟨?_, ?_, ?_⟩
  · intro h
    have hmem1 : (truthyGet parameters (str "ImageId") = false
        ∧ truthyGet parameters (str "ImageDescription") = false) →
        Value.vstr (str "Either ImageId or ImageDescription is required")
          ∈ (basic_validation (str "ec2") (str "create") parameters).errors := by
      intro ⟨ha, hb⟩
      simp [basic_validation, ha, hb]
    have hmem2 : hasKey parameters (str "InstanceType") = false →
        Value.vstr (str "Required parameter \x27InstanceType\x27 is missing")
          ∈ (basic_validation (str "ec2") (str "create") parameters).errors := by
      intro ha
      simp [basic_validation, ha]
    refine ⟨?_, hmem1, hmem2⟩
    rw [basic_validation_valid_iff]
    apply isEmpty_false_of_ne_nil
    intro hnil
    rcases h with ⟨ha, hb⟩ | ha
    · have := hmem1 ⟨ha, hb⟩
      rw [hnil] at this
      exact absurd this (List.not_mem_nil _)
    · have := hmem2 ha
      rw [hnil] at this
      exact absurd this (List.not_mem_nil _)
  · intro h
    have hmem1 : truthyGet parameters (str "Action") = false →
        Value.vstr (str "Required parameter \x27Action\x27 is missing")
          ∈ (basic_validation (str "ec2") (str "lifecycle") parameters).errors := by
      intro ha
      simp [basic_validation, ha, (by decide : ¬str "lifecycle" = str "create")]
    have hmem2 : (truthyGet parameters (str "InstanceId") = false
        ∧ truthyGet parameters (str "InstanceDescription") = false) →
        Value.vstr (str "Either InstanceId or InstanceDescription is required")
          ∈ (basic_validation (str "ec2") (str "lifecycle") parameters).errors := by
      intro ⟨ha, hb⟩
      simp [basic_validation, ha, hb, (by decide : ¬str "lifecycle" = str "create")]
    refine ⟨?_, hmem1, hmem2⟩
    rw [basic_validation_valid_iff]
    apply isEmpty_false_of_ne_nil
    intro hnil
    rcases h with ha | ⟨ha, hb⟩
    · have := hmem1 ha
      rw [hnil] at this
      exact absurd this (List.not_mem_nil _)
    · have := hmem2 ⟨ha, hb⟩
      rw [hnil] at this
      exact absurd this (List.not_mem_nil _)
  · intro h
    have hmem : Value.vstr (str "Required parameter \x27BucketName\x27 is missing")
        ∈ (basic_validation (str "s3") (str "create") parameters).errors := by
      simp [basic_validation, h, (by decide : ¬str "s3" = str "ec2")]
    refine ⟨?_, hmem⟩
    rw [basic_validation_valid_iff]
    apply isEmpty_false_of_ne_nil
    intro hnil
    rw [hnil] at hmem
    exact absurd hmem (List.not_mem_nil _)

/-- C6, witness: the empty EC2-create ParameterSet is invalid and its
errors enumerate both missing required fields. -/
theorem claim_C6_witness :
    (basic_validation (str "ec2") (str "create") []).valid = false
    ∧ Value.vstr (str "Either ImageId or ImageDescription is required")
        ∈ (basic_validation (str "ec2") (str "create") []).errors
    ∧ Value.vstr (str "Required parameter \x27InstanceType\x27 is missing")
        ∈ (basic_validation (str "ec2") (str "create") []).errors := by
  obtain ⟨hv, hm1, hm2⟩ := (claim_C6 []).1 (Or.inl ⟨rfl, rfl⟩)
  exact ⟨hv, hm1 ⟨rfl, rfl⟩, hm2 rfl⟩

/-- C9, counterexample: `c9params` contains `MinCount`, `MaxCount`,
`InstanceType` and list-form `Tags`, yet the resolver is not the
identity on it — the present-but-empty `InstanceType` is treated as
absent and overwritten from `InstanceTypeDescription`. -/
theorem claim_C9_counterexample :
    hasKey c9params (str "MinCount") = true
    ∧ hasKey c9params (str "MaxCount") = true
    ∧ hasKey c9params (str "InstanceType") = true
    ∧ (∃ ts, getVal c9params (str "Tags") = some (Value.vlist ts))
    ∧ apply_defaults_and_transformations c9params (str "create") ≠ c9params := by
  refine ⟨rfl, rfl, rfl, ⟨[], rfl⟩, ?_⟩
  intro h
  have h1 : getVal (apply_defaults_and_transformations c9params (str "create"))
      (str "InstanceType") = some (Value.vstr (str "t3.micro")) := rfl
  rw [h] at h1
  have h2 : getVal c9params (str "InstanceType") = some (Value.vstr []) := rfl
  rw [h2] at h1
  injection h1 with h3
  injection h3 with h4
  exact absurd h4 (by decide)

theorem getVal_condSet (d : Params) (c : Bool) (key : Str) (v : Value) {k : Str}
    (hk : key ≠ k) :
    getVal (if c then setVal d key v else d) k = getVal d k := by
  cases c
  · rfl
  · simp [getVal_setVal_ne d hk v]

theorem hasKey_condSet (d : Params) (c : Bool) (key : Str) (v : Value) {k : Str}
    (hk : key ≠ k) :
    hasKey (if c then setVal d key v else d) k = hasKey d k := by
  cases c
  · rfl
  · simp [hasKey, getVal_setVal_ne d hk v]

theorem truthyGet_condSet (d : Params) (c : Bool) (key : Str) (v : Value) {k : Str}
    (hk : key ≠ k) :
    truthyGet (if c then setVal d key v else d) k = truthyGet d k := by
  cases c
  · rfl
  · simp [truthyGet, getVal_setVal_ne d hk v]

theorem getVal_resolve_ne (d : Params) {k : Str} (hk : str "InstanceType" ≠ k) :
    getVal (resolve_instance_type d) k = getVal d k := by
  unfold resolve_instance_type
  exact getVal_setVal_ne _ hk _

theorem apply_defaults_getVal_preserve (parameters : Params) (k : Str)
    (h1 : str "MinCount" ≠ k ∨ hasKey parameters (str "MinCount") = true)
    (h2 : str "MaxCount" ≠ k ∨ hasKey parameters (str "MaxCount") = true)
    (h3 : str "InstanceType" ≠ k ∨ truthyGet parameters (str "InstanceType") = true)
    (h4 : str "Tags" ≠ k) :
    getVal (apply_defaults_and_transformations parameters (str "create")) k
      = getVal parameters k := by
  simp only [apply_defaults_and_transformations, if_true]
  generalize hq1 : (if !hasKey parameters (str "MinCount")
      then setVal parameters (str "MinCount") (Value.vint 1) else parameters) = q1
  have e1h : ∀ k', str "MinCount" ≠ k' →
      hasKey q1 k' = hasKey parameters k' ∧ truthyGet q1 k' = truthyGet parameters k'
        ∧ getVal q1 k' = getVal parameters k' := by
    intro k' hk'
    rw [← hq1]
    exact ⟨hasKey_condSet _ _ _ _ hk', truthyGet_condSet _ _ _ _ hk',
      getVal_condSet _ _ _ _ hk'⟩
  have e1 : getVal q1 k = getVal parameters k := by
    rcases h1 with hne | hhk
    · rw [← hq1]
      exact getVal_condSet _ _ _ _ hne
    · rw [← hq1, hhk]
      rfl
  generalize hq2 : (if !hasKey q1 (str "MaxCount")
      then setVal q1 (str "MaxCount") (Value.vint 1) else q1) = q2
  have e2h : ∀ k', str "MaxCount" ≠ k' →
      hasKey q2 k' = hasKey q1 k' ∧ truthyGet q2 k' = truthyGet q1 k'
        ∧ getVal q2 k' = getVal q1 k' := by
    intro k' hk'
    rw [← hq2]
    exact ⟨hasKey_condSet _ _ _ _ hk', truthyGet_condSet _ _ _ _ hk',
      getVal_condSet _ _ _ _ hk'⟩
  have e2 : getVal q2 k = getVal q1 k := by
    rcases h2 with hne | hhk
    · rw [← hq2]
      exact getVal_condSet _ _ _ _ hne
    · have : hasKey q1 (str "MaxCount") = true := by
        rw [(e1h _ (by decide)).1, hhk]
      rw [← hq2, this]
      rfl
  generalize hq3 : (if hasKey q2 (str "InstanceTypeDescription")
        && !truthyGet q2 (str "InstanceType")
      then resolve_instance_type q2 else q2) = q3
  have e3 : getVal q3 k = getVal q2 k := by
    rcases h3 with hne | htruthy
    · rw [← hq3]
      by_cases hc : (hasKey q2 (str "InstanceTypeDescription")
          && !truthyGet q2 (str "InstanceType")) = true
      · rw [if_pos hc]
        exact getVal_resolve_ne _ hne
      · rw [if_neg hc]
    · have ht : truthyGet q2 (str "InstanceType") = true := by
        rw [(e2h _ (by decide)).2.1, (e1h _ (by decide)).2.1, htruthy]
      rw [← hq3, ht]
      simp
  have echain : getVal q3 k = getVal parameters k := by
    rw [e3, e2, e1]
  cases htg : getVal q3 (str "Tags") with
  | none => exact echain
  | some v =>
    cases v with
    | vdict tags =>
      rw [getVal_setVal_ne _ h4 _]
      exact echain
    | null => exact echain
    | vstr s => exact echain
    | vint n => exact echain
    | vbool b => exact echain
    | vlist l => exact echain

theorem apply_defaults_id (parameters : Params)
    (hmin : hasKey parameters (str "MinCount") = true)
    (hmax : hasKey parameters (str "MaxCount") = true)
    (hit : truthyGet parameters (str "InstanceType") = true)
    (htags : ∀ v, getVal parameters (str "Tags") = some v → ∀ d, v ≠ Value.vdict d) :
    apply_defaults_and_transformations parameters (str "create") = parameters := by
  simp only [apply_defaults_and_transformations, if_true, hmin, hmax, hit,
    Bool.not_true, Bool.and_false, Bool.false_eq_true, if_false]
  cases htg : getVal parameters (str "Tags") with
  | none => rfl
  | some v =>
    cases v with
    | vdict d => exact absurd rfl (htags _ htg d)
    | null => rfl
    | vstr s => rfl
    | vint n => rfl
    | vbool b => rfl
    | vlist l => rfl

/-- C9 (amended): the EC2 create resolver is the identity on every
ParameterSet containing `MinCount`, `MaxCount`, a truthy (non-empty)
`InstanceType` and list-form (non-dict) `Tags`; moreover the
`MinCount`/`MaxCount` defaults never overwrite a present key, and
`InstanceType` is only overwritten when its present value is falsy (a
present-but-empty `InstanceType` is treated as absent, which is what
the counterexample exploits). -/
theorem claim_C9 :
    (∀ parameters : Params,
      hasKey parameters (str "MinCount") = true →
      hasKey parameters (str "MaxCount") = true →
      truthyGet parameters (str "InstanceType") = true →
      (∀ v, getVal parameters (str "Tags") = some v → ∀ d, v ≠ Value.vdict d) →
      apply_defaults_and_transformations parameters (str "create") = parameters)
    ∧ (∀ parameters : Params, hasKey parameters (str "MinCount") = true →
      getVal (apply_defaults_and_transformations parameters (str "create")) (str "MinCount")
        = getVal parameters (str "MinCount"))
    ∧ (∀ parameters : Params, hasKey parameters (str "MaxCount") = true →
      getVal (apply_defaults_and_transformations parameters (str "create")) (str "MaxCount")
        = getVal parameters (str "MaxCount"))
    ∧ (∀ parameters : Params, truthyGet parameters (str "InstanceType") = true →
      getVal (apply_defaults_and_transformations parameters (str "create")) (str "InstanceType")
        = getVal parameters (str "InstanceType")) := by
  refine ⟨fun p h1 h2 h3 h4 => apply_defaults_id p h1 h2 h3 h4, ?_, ?_, ?_⟩
  · intro p h
    exact apply_defaults_getVal_preserve p _ (Or.inr h) (Or.inl (by decide))
      (Or.inl (by decide)) (by decide)
  · intro p h
    exact apply_defaults_getVal_preserve p _ (Or.inl (by decide)) (Or.inr h)
      (Or.inl (by decide)) (by decide)
  · intro p h
    exact apply_defaults_getVal_preserve p _ (Or.inl (by decide)) (Or.inl (by decide))
      (Or.inr h) (by decide)

/-- C9, witness: a complete ParameterSet with a non-empty
`InstanceType` passes through the resolver unchanged. -/
theorem claim_C9_witness :
    apply_defaults_and_transformations
      [(str "MinCount", Value.vint 1), (str "MaxCount", Value.vint 1),
       (str "InstanceType", Value.vstr (str "t2.micro")), (str "Tags", Value.vlist [])]
      (str "create")
      = [(str "MinCount", Value.vint 1), (str "MaxCount", Value.vint 1),
         (str "InstanceType", Value.vstr (str "t2.micro")), (str "Tags", Value.vlist [])] :=
  claim_C9.1 _ rfl rfl rfl (fun v hv d => by
    injection hv with h
    subst h
    exact fun heq => Value.noConfusion heq)

/-! ### C8 machinery: scanners on the rendered object family -/

theorem okChar_ne {c b : Char} (h : okChar c = true) (hb : okChar b = false) : c ≠ b := by
  intro he
  subst he
  rw [h] at hb
  cases hb

theorem not_mem_of_okStr {s : Str} (hs : okStr s) {b : Char} (hb : okChar b = false) :
    b ∉ s := by
  intro hmem
  have := hs b hmem
  rw [hb] at this
  cases this

theorem atFront_append (a b : Str) : atFront a (a ++ b) = true := by
  induction a with
  | nil => simp [atFront]
  | cons c t ih =>
    simp only [atFront, List.cons_append, List.isPrefixOf_cons₂, beq_self_eq_true,
      Bool.true_and]
    exact ih

theorem atFront_cons_ne {c x : Char} (n h : Str) (hne : c ≠ x) :
    atFront (c :: n) (x :: h) = false := by
  simp [atFront, List.isPrefixOf_cons₂, beq_iff_eq, hne]

theorem atFront_refl (a : Str) : atFront a a = true := by
  have := atFront_append a []
  simpa using this

theorem strFind_append_notin {a m : Str} {c : Char} (hc : c ∉ a) :
    strFind (a ++ c :: m) (c :: m) = some a.length := by
  induction a with
  | nil =>
    simp [strFind, atFront_refl]
  | cons x t ih =>
    have hxc : c ≠ x := fun he => hc (he ▸ List.mem_cons_self x t)
    have hfa : atFront (c :: m) (x :: (t ++ c :: m)) = false := atFront_cons_ne _ _ hxc
    have hct : c ∉ t := fun hm => hc (List.mem_cons_of_mem _ hm)
    simp [strFind, hfa, ih hct, List.length_cons]

theorem mem_joinSep {sep : Str} {l : List Str} {c : Char} (h : c ∈ joinSep sep l) :
    c ∈ sep ∨ ∃ x ∈ l, c ∈ x := by
  induction l with
  | nil => cases h
  | cons x xs ih =>
    cases xs with
    | nil =>
      right
      exact ⟨x, List.mem_cons_self _ _, h⟩
    | cons y ys =>
      rw [show joinSep sep (x :: y :: ys) = x ++ sep ++ joinSep sep (y :: ys) from rfl] at h
      rcases List.mem_append.1 h with h1 | h2
      · rcases List.mem_append.1 h1 with ha | hb
        · exact Or.inr ⟨x, List.mem_cons_self _ _, ha⟩
        · exact Or.inl hb
      · rcases ih h2 with hs | ⟨z, hz, hcz⟩
        · exact Or.inl hs
        · exact Or.inr ⟨z, List.mem_cons_of_mem _ hz, hcz⟩

theorem mem_renderSQPair {p : SQPair} {c : Char} (h : c ∈ renderSQPair p) :
    c ∈ p.key ∨ c ∈ p.val ∨ c = squo ∨ c = ':' ∨ c = ' ' := by
  have hform : renderSQPair p
      = squo :: (p.key ++ (squo :: (':' :: (' ' :: (squo :: (p.val ++ [squo])))))) := rfl
  rw [hform] at h
  simp only [List.mem_cons, List.mem_append, List.mem_singleton] at h
  tauto

theorem mem_renderSQBody {ps : List SQPair} {c : Char}
    (hok : ∀ p ∈ ps, okStr p.key ∧ okStr p.val) (h : c ∈ renderSQBody ps) :
    okChar c = true ∨ c = '{' ∨ c = '}' ∨ c = ',' ∨ c = ':' ∨ c = ' ' ∨ c = squo := by
  have hform : renderSQBody ps
      = '{' :: (joinSep (str ", ") (ps.map renderSQPair) ++ [',', '}']) := rfl
  rw [hform] at h
  simp only [List.mem_cons, List.mem_append] at h
  rcases h with h | h | h
  · tauto
  · rcases mem_joinSep h with hs | ⟨x, hx, hcx⟩
    · have : c = ',' ∨ c = ' ' := by
        simpa [show str ", " = [',', ' '] from rfl] using hs
      tauto
    · obtain ⟨p, hp, rfl⟩ := List.mem_map.1 hx
      rcases mem_renderSQPair hcx with hk | hv | hsq | hcol | hsp
      · exact Or.inl ((hok p hp).1 _ hk)
      · exact Or.inl ((hok p hp).2 _ hv)
      · tauto
      · tauto
      · tauto
  · tauto

theorem fenceSearch_fenced {body : Str} (hnl : '\n' ∉ body) :
    fenceSearch (str "```json\n" ++ (body ++ str "\n```")) = some body := by
  have hcons : str "```json\n" ++ (body ++ str "\n```")
      = Char.ofNat 96 :: (str "``json\n" ++ (body ++ str "\n```")) := rfl
  have hpre : atFront (str "```json\n")
      (Char.ofNat 96 :: (str "``json\n" ++ (body ++ str "\n```"))) = true := by
    have h := atFront_append (str "```json\n") (body ++ str "\n```")
    exact h
  have hdrop : (Char.ofNat 96 :: (str "``json\n" ++ (body ++ str "\n```"))).drop 8
      = body ++ str "\n```" := by
    have h := List.drop_left (str "```json\n") (body ++ str "\n```")
    exact h
  have hfind : strFind (body ++ str "\n```") (str "\n```") = some body.length := by
    have h := strFind_append_notin (a := body) (m := str "```") (c := '\n') hnl
    exact h
  have htake : (body ++ str "\n```").take body.length = body :=
    List.take_left body (str "\n```")
  rw [hcons]
  simp only [fenceSearch, hpre, if_true, hdrop, hfind, htake]

theorem rfGo_id {s : Str} (h : Char.ofNat 96 ∉ s) : ∀ f, rfGo f s = s := by
  induction s with
  | nil =>
    intro f
    cases f <;> rfl
  | cons c t ih =>
    intro f
    cases f with
    | zero => rfl
    | succ g =>
      have hc : c ≠ Char.ofNat 96 := fun he => h (he ▸ List.mem_cons_self c t)
      have hfa : atFront (str "```") (c :: t) = false := by
        rw [show str "```" = Char.ofNat 96 :: str "``" from rfl]
        exact atFront_cons_ne _ _ (Ne.symm hc)
      have ht : Char.ofNat 96 ∉ t := fun hm => h (List.mem_cons_of_mem _ hm)
      simp [rfGo, hfa, ih ht]

theorem removeFences_id {s : Str} (h : Char.ofNat 96 ∉ s) : removeFences s = s :=
  rfGo_id h _

theorem stripStr_brace (mid : Str) :
    stripStr ('{' :: (mid ++ ['}'])) = '{' :: (mid ++ ['}']) := by
  have h1 : skipWs ('{' :: (mid ++ ['}'])) = '{' :: (mid ++ ['}']) := by
    simp [skipWs, List.dropWhile, (show isPySpace '{' = false from rfl)]
  unfold stripStr
  rw [h1]
  simp [List.reverse_cons, List.reverse_append, List.dropWhile,
    (show isPySpace '}' = false from rfl), List.reverse_reverse]

theorem selectJsonStr_fenced (ps : List SQPair)
    (hok : ∀ p ∈ ps, okStr p.key ∧ okStr p.val) :
    selectJsonStr (fencedResponse ps) = renderSQBody ps := by
  have hnl : '\n' ∉ renderSQBody ps := by
    intro hm
    rcases mem_renderSQBody hok hm with h | h | h | h | h | h | h
    · exact absurd h (by decide)
    all_goals exact absurd h (by decide)
  have hbt : Char.ofNat 96 ∉ renderSQBody ps := by
    intro hm
    rcases mem_renderSQBody hok hm with h | h | h | h | h | h | h
    · exact absurd h (by decide)
    all_goals exact absurd h (by decide)
  rw [show fencedResponse ps = str "```json\n" ++ (renderSQBody ps ++ str "\n```") from rfl]
  simp only [selectJsonStr, fenceSearch_fenced hnl]
  rw [removeFences_id hbt]
  rw [show renderSQBody ps
      = '{' :: ((joinSep (str ", ") (ps.map renderSQPair) ++ [',']) ++ ['}']) from by
    simp [renderSQBody, List.append_assoc, (show str ",\x7d" = [',', '}'] from rfl)]]
  rw [stripStr_brace]

theorem parseMembers_squo (f : Nat) (rest : Str) (acc : List (Str × Value)) :
    parseMembers f (squo :: rest) acc = none := by
  cases f with
  | zero => rfl
  | succ g => rfl

theorem parseVal_brace_squo (f : Nat) (rest : Str) :
    parseVal (f + 1) ('{' :: (squo :: rest)) = none := by
  cases f with
  | zero => rfl
  | succ g => rfl

theorem parseJson_renderSQBody (ps : List SQPair) (hne : ps ≠ []) :
    parseJson (renderSQBody ps) = none := by
  obtain ⟨p, tl, rfl⟩ : ∃ p tl, ps = p :: tl := by
    cases ps with
    | nil => exact absurd rfl hne
    | cons p tl => exact ⟨p, tl, rfl⟩
  obtain ⟨rest, hb⟩ : ∃ rest, renderSQBody (p :: tl) = '{' :: (squo :: rest) := by
    cases tl with
    | nil => exact ⟨_, rfl⟩
    | cons q qts => exact ⟨_, rfl⟩
  rw [hb]
  simp [parseJson, parseVal_brace_squo]

theorem replaceQuotes_append (a b : Str) :
    replaceQuotes (a ++ b) = replaceQuotes a ++ replaceQuotes b :=
  List.map_append _ _ _

theorem replaceQuotes_okStr {s : Str} (h : okStr s) : replaceQuotes s = s := by
  induction s with
  | nil => rfl
  | cons c t ih =>
    have hc : c ≠ Char.ofNat 39 :=
      okChar_ne (h c (List.mem_cons_self _ _)) (by decide)
    have ht : okStr t := fun x hx => h x (List.mem_cons_of_mem _ hx)
    show (if c = Char.ofNat 39 then '"' else c) :: replaceQuotes t = c :: t
    rw [if_neg hc, ih ht]

theorem joinSep_map (f : Char → Char) (sep : Str) (l : List Str) :
    (joinSep sep l).map f = joinSep (sep.map f) (l.map (fun x => x.map f)) := by
  induction l with
  | nil => rfl
  | cons x xs ih =>
    cases xs with
    | nil => rfl
    | cons y ys =>
      show (x ++ sep ++ joinSep sep (y :: ys)).map f = _
      rw [List.map_append, List.map_append, ih]
      rfl

theorem replaceQuotes_renderSQPair {p : SQPair} (hk : okStr p.key) (hv : okStr p.val) :
    replaceQuotes (renderSQPair p) = renderDQPair p := by
  rw [show renderSQPair p
      = [squo] ++ (p.key ++ ([squo] ++ ((str ": ") ++ ([squo] ++ (p.val ++ [squo])))))
    from rfl]
  rw [replaceQuotes_append, replaceQuotes_append, replaceQuotes_append,
    replaceQuotes_append, replaceQuotes_append, replaceQuotes_append,
    replaceQuotes_okStr hk, replaceQuotes_okStr hv]
  rfl

theorem replaceQuotes_renderSQBody (ps : List SQPair)
    (hok : ∀ p ∈ ps, okStr p.key ∧ okStr p.val) :
    replaceQuotes (renderSQBody ps) = renderDQBody ps := by
  have hjoin : replaceQuotes (joinSep (str ", ") (ps.map renderSQPair))
      = joinSep (str ", ") (ps.map renderDQPair) := by
    show (joinSep (str ", ") (ps.map renderSQPair)).map _ = _
    rw [joinSep_map, List.map_map]
    have h1 : (str ", ").map (fun c => if c = Char.ofNat 39 then '"' else c) = str ", " := rfl
    rw [h1]
    congr 1
    exact List.map_congr_left
      (fun p hp => replaceQuotes_renderSQPair (hok p hp).1 (hok p hp).2)
  rw [show renderSQBody ps
      = ['{'] ++ (joinSep (str ", ") (ps.map renderSQPair) ++ str ",\x7d") from rfl]
  rw [replaceQuotes_append, replaceQuotes_append, hjoin]
  rfl

theorem keyAhead_nonword (r : Str) {c : Char} (h1 : isPySpace c = false)
    (h2 : isWordChar c = false) : keyAhead (c :: r) = false := by
  simp [keyAhead, skipWs, List.dropWhile, h1, List.takeWhile, h2]

theorem keyAhead_sep (R : Str) : keyAhead (' ' :: ('"' :: R)) = false := by
  simp [keyAhead, skipWs, List.dropWhile, List.takeWhile,
    (show isPySpace ' ' = true from rfl), (show isPySpace '"' = false from rfl),
    (show isWordChar '"' = false from rfl)]

theorem qbkGo_skipstep {c : Char} {rest : Str}
    (h : ((c = '{' || c = ',') && keyAhead rest) = false) :
    qbkGo QbkMode.normal (c :: rest) = c :: qbkGo QbkMode.normal rest := by
  simp only [qbkGo, h, Bool.false_eq_true, if_false]

theorem qbkGo_skip_run {a : Str} (ha : ∀ c ∈ a, c ≠ '{' ∧ c ≠ ',') (rest : Str) :
    qbkGo QbkMode.normal (a ++ rest) = a ++ qbkGo QbkMode.normal rest := by
  induction a with
  | nil => rfl
  | cons c t ih =>
    have hc := ha c (List.mem_cons_self _ _)
    have hcond : ((c = '{' || c = ',') && keyAhead (t ++ rest)) = false := by
      simp [hc.1, hc.2]
    rw [List.cons_append, qbkGo_skipstep hcond,
      ih (fun x hx => ha x (List.mem_cons_of_mem _ hx))]
    rfl

theorem mem_renderDQPair {p : SQPair} {c : Char} (h : c ∈ renderDQPair p) :
    c ∈ p.key ∨ c ∈ p.val ∨ c = '"' ∨ c = ':' ∨ c = ' ' := by
  have hform : renderDQPair p
      = '"' :: (p.key ++ ('"' :: (':' :: (' ' :: ('"' :: (p.val ++ ['"'])))))) := rfl
  rw [hform] at h
  simp only [List.mem_cons, List.mem_append, List.mem_singleton] at h
  tauto

theorem renderDQPair_no_trigger {p : SQPair} (hk : okStr p.key) (hv : okStr p.val) :
    ∀ c ∈ renderDQPair p, c ≠ '{' ∧ c ≠ ',' := by
  intro c hc
  rcases mem_renderDQPair hc with h | h | h | h | h
  · exact ⟨okChar_ne (hk c h) (by decide), okChar_ne (hk c h) (by decide)⟩
  · exact ⟨okChar_ne (hv c h) (by decide), okChar_ne (hv c h) (by decide)⟩
  · subst h; exact ⟨by decide, by decide⟩
  · subst h; exact ⟨by decide, by decide⟩
  · subst h; exact ⟨by decide, by decide⟩

theorem qbk_join_tail (ps : List SQPair) (hok : ∀ p ∈ ps, okStr p.key ∧ okStr p.val) :
    qbkGo QbkMode.normal (joinSep (str ", ") (ps.map renderDQPair) ++ str ",\x7d")
      = joinSep (str ", ") (ps.map renderDQPair) ++ str ",\x7d" := by
  induction ps with
  | nil => rfl
  | cons p tl ih =>
    have hpair := renderDQPair_no_trigger (hok p (List.mem_cons_self _ _)).1
      (hok p (List.mem_cons_self _ _)).2
    cases tl with
    | nil =>
      show qbkGo QbkMode.normal (renderDQPair p ++ str ",\x7d") = renderDQPair p ++ str ",\x7d"
      rw [qbkGo_skip_run hpair]
      rw [show qbkGo QbkMode.normal (str ",\x7d") = str ",\x7d" from rfl]
    | cons q qts =>
      have hJ : ∃ R, joinSep (str ", ") ((q :: qts).map renderDQPair) ++ str ",\x7d"
          = '"' :: R := by
        cases qts with
        | nil => exact ⟨_, rfl⟩
        | cons r rs => exact ⟨_, rfl⟩
      obtain ⟨R, hR⟩ := hJ
      show qbkGo QbkMode.normal
          ((renderDQPair p ++ str ", " ++ joinSep (str ", ") ((q :: qts).map renderDQPair))
            ++ str ",\x7d") = _
      rw [List.append_assoc, List.append_assoc, qbkGo_skip_run hpair]
      rw [show (str ", ") ++ (joinSep (str ", ") ((q :: qts).map renderDQPair) ++ str ",\x7d")
          = ',' :: (' ' :: (joinSep (str ", ") ((q :: qts).map renderDQPair) ++ str ",\x7d"))
        from rfl]
      have hka : keyAhead
          (' ' :: (joinSep (str ", ") ((q :: qts).map renderDQPair) ++ str ",\x7d")) = false := by
        rw [hR]
        exact keyAhead_sep R
      have hcond1 : (((',' : Char) = '{' || (',' : Char) = ',')
          && keyAhead (' ' :: (joinSep (str ", ") ((q :: qts).map renderDQPair)
            ++ str ",\x7d"))) = false := by
        rw [hka]
        simp
      rw [qbkGo_skipstep hcond1]
      have hcond2 : (((' ' : Char) = '{' || (' ' : Char) = ',')
          && keyAhead (joinSep (str ", ") ((q :: qts).map renderDQPair) ++ str ",\x7d"))
          = false := by
        simp [(by decide : ¬(' ' : Char) = '{'), (by decide : ¬(' ' : Char) = ',')]
      rw [qbkGo_skipstep hcond2]
      rw [ih (fun x hx => hok x (List.mem_cons_of_mem _ hx))]
      rw [show joinSep (str ", ") (List.map renderDQPair (p :: q :: qts))
          = renderDQPair p ++ str ", " ++ joinSep (str ", ") (List.map renderDQPair (q :: qts))
        from rfl]
      simp only [List.append_assoc]
      rfl

theorem quoteBareKeys_renderDQBody (ps : List SQPair) (hne : ps ≠ [])
    (hok : ∀ p ∈ ps, okStr p.key ∧ okStr p.val) :
    quoteBareKeys (renderDQBody ps) = renderDQBody ps := by
  obtain ⟨p, tl, rfl⟩ : ∃ p tl, ps = p :: tl := by
    cases ps with
    | nil => exact absurd rfl hne
    | cons p tl => exact ⟨p, tl, rfl⟩
  obtain ⟨R, hR⟩ : ∃ R, joinSep (str ", ") ((p :: tl).map renderDQPair) ++ str ",\x7d"
      = '"' :: R := by
    cases tl with
    | nil => exact ⟨_, rfl⟩
    | cons q qts => exact ⟨_, rfl⟩
  show qbkGo QbkMode.normal
      ('{' :: (joinSep (str ", ") ((p :: tl).map renderDQPair) ++ str ",\x7d")) = _
  have hka : keyAhead (joinSep (str ", ") ((p :: tl).map renderDQPair) ++ str ",\x7d")
      = false := by
    rw [hR]
    exact keyAhead_nonword R (by decide) (by decide)
  have hcond : ((('{' : Char) = '{' || ('{' : Char) = ',')
      && keyAhead (joinSep (str ", ") ((p :: tl).map renderDQPair) ++ str ",\x7d")) = false := by
    rw [hka]
    simp
  rw [qbkGo_skipstep hcond, qbk_join_tail _ hok]
  rfl

theorem wsBracketAhead_sep (R : Str) : wsBracketAhead (' ' :: ('"' :: R)) = false := by
  simp [wsBracketAhead, skipWs, List.dropWhile,
    (show isPySpace ' ' = true from rfl), (show isPySpace '"' = false from rfl)]

theorem stcGo_skipstep {c : Char} {rest : Str}
    (h : ((c = ',') && wsBracketAhead rest) = false) :
    stcGo false (c :: rest) = c :: stcGo false rest := by
  simp only [stcGo, h, Bool.false_eq_true, if_false]

theorem stcGo_skip_run {a : Str} (ha : ∀ c ∈ a, c ≠ ',') (rest : Str) :
    stcGo false (a ++ rest) = a ++ stcGo false rest := by
  induction a with
  | nil => rfl
  | cons c t ih =>
    have hc := ha c (List.mem_cons_self _ _)
    have hcond : ((c = ',') && wsBracketAhead (t ++ rest)) = false := by
      simp [hc]
    rw [List.cons_append, stcGo_skipstep hcond,
      ih (fun x hx => ha x (List.mem_cons_of_mem _ hx))]
    rfl

theorem stc_join_tail (ps : List SQPair) (hok : ∀ p ∈ ps, okStr p.key ∧ okStr p.val) :
    stcGo false (joinSep (str ", ") (ps.map renderDQPair) ++ str ",\x7d")
      = joinSep (str ", ") (ps.map renderDQPair) ++ ['}'] := by
  induction ps with
  | nil => rfl
  | cons p tl ih =>
    have hpair : ∀ c ∈ renderDQPair p, c ≠ ',' := fun c hc =>
      (renderDQPair_no_trigger (hok p (List.mem_cons_self _ _)).1
        (hok p (List.mem_cons_self _ _)).2 c hc).2
    cases tl with
    | nil =>
      show stcGo false (renderDQPair p ++ str ",\x7d") = renderDQPair p ++ ['}']
      rw [stcGo_skip_run hpair]
      rw [show stcGo false (str ",\x7d") = ['}'] from rfl]
    | cons q qts =>
      obtain ⟨R, hR⟩ : ∃ R, joinSep (str ", ") ((q :: qts).map renderDQPair) ++ str ",\x7d"
          = '"' :: R := by
        cases qts with
        | nil => exact ⟨_, rfl⟩
        | cons r rs => exact ⟨_, rfl⟩
      show stcGo false
          ((renderDQPair p ++ str ", " ++ joinSep (str ", ") ((q :: qts).map renderDQPair))
            ++ str ",\x7d") = _
      rw [List.append_assoc, List.append_assoc, stcGo_skip_run hpair]
      rw [show (str ", ") ++ (joinSep (str ", ") ((q :: qts).map renderDQPair) ++ str ",\x7d")
          = ',' :: (' ' :: (joinSep (str ", ") ((q :: qts).map renderDQPair) ++ str ",\x7d"))
        from rfl]
      have hwb : wsBracketAhead
          (' ' :: (joinSep (str ", ") ((q :: qts).map renderDQPair) ++ str ",\x7d")) = false := by
        rw [hR]
        exact wsBracketAhead_sep R
      have hcond1 : (((',' : Char) = ',')
          && wsBracketAhead (' ' :: (joinSep (str ", ") ((q :: qts).map renderDQPair)
            ++ str ",\x7d"))) = false := by
        rw [hwb]
        simp
      rw [stcGo_skipstep hcond1]
      have hcond2 : (((' ' : Char) = ',')
          && wsBracketAhead (joinSep (str ", ") ((q :: qts).map renderDQPair) ++ str ",\x7d"))
          = false := by
        simp [(by decide : ¬(' ' : Char) = ',')]
      rw [stcGo_skipstep hcond2]
      rw [ih (fun x hx => hok x (List.mem_cons_of_mem _ hx))]
      rw [show joinSep (str ", ") (List.map renderDQPair (p :: q :: qts))
          = renderDQPair p ++ str ", " ++ joinSep (str ", ") (List.map renderDQPair (q :: qts))
        from rfl]
      simp only [List.append_assoc]
      rfl

theorem stripTrailingCommas_renderDQBody (ps : List SQPair)
    (hok : ∀ p ∈ ps, okStr p.key ∧ okStr p.val) :
    stripTrailingCommas (renderDQBody ps) = renderFinalBody ps := by
  show stcGo false ('{' :: (joinSep (str ", ") (ps.map renderDQPair) ++ str ",\x7d")) = _
  have hcond : ((('{' : Char) = ',')
      && wsBracketAhead (joinSep (str ", ") (ps.map renderDQPair) ++ str ",\x7d")) = false := by
    simp [(by decide : ¬('{' : Char) = ',')]
  rw [stcGo_skipstep hcond, stc_join_tail _ hok]
  rfl

theorem fix_json_string_renderSQBody (ps : List SQPair) (hne : ps ≠ [])
    (hok : ∀ p ∈ ps, okStr p.key ∧ okStr p.val) :
    fix_json_string (renderSQBody ps) = renderFinalBody ps := by
  unfold fix_json_string
  rw [replaceQuotes_renderSQBody ps hok, quoteBareKeys_renderDQBody ps hne hok,
    stripTrailingCommas_renderDQBody ps hok]

theorem parseStrBody_plain {key : Str} (h : ∀ c ∈ key, c ≠ '"' ∧ c ≠ '\\') (r : Str) :
    parseStrBody (key ++ '"' :: r) = some (key, r) := by
  induction key with
  | nil =>
    rw [List.nil_append, parseStrBody.eq_def]
    simp
  | cons c t ih =>
    have hc := h c (List.mem_cons_self _ _)
    rw [List.cons_append, parseStrBody.eq_def]
    simp [hc.1, hc.2, ih (fun x hx => h x (List.mem_cons_of_mem _ hx))]

set_option maxHeartbeats 1000000 in
theorem parseVal_sp_string (f : Nat) (val r : Str)
    (hv : ∀ c ∈ val, c ≠ '"' ∧ c ≠ '\\') :
    parseVal (f + 1) (' ' :: ('"' :: (val ++ '"' :: r))) = some (Value.vstr val, r) := by
  have hws : skipWs (' ' :: ('"' :: (val ++ '"' :: r))) = '"' :: (val ++ '"' :: r) := by
    simp [skipWs, List.dropWhile, (show isPySpace ' ' = true from rfl),
      (show isPySpace '"' = false from rfl)]
  rw [parseVal.eq_def]
  simp only [hws]
  simp only [parseStrBody_plain hv r]

theorem skipWs_cons_neg {c : Char} (h : isPySpace c = false) (t : Str) :
    skipWs (c :: t) = c :: t := by
  simp [skipWs, List.dropWhile, h]

theorem hasKey_append_single (acc : Params) (k : Str) (v : Value) (k' : Str) :
    hasKey (acc ++ [(k, v)]) k' = (hasKey acc k' || decide (k = k')) := by
  induction acc with
  | nil =>
    by_cases h : k = k' <;> simp [hasKey, getVal, h]
  | cons kv rest ih =>
    obtain ⟨k0, v0⟩ := kv
    by_cases h : k0 = k'
    · simp [hasKey, getVal, h]
    · simp only [List.cons_append]
      simp [hasKey, getVal, h]
      simpa [hasKey] using ih

set_option maxHeartbeats 2000000 in
theorem parseMembers_render :
    ∀ (ps : List SQPair) (f : Nat) (acc : List (Str × Value)) (rest : Str),
    ps ≠ [] → (∀ p ∈ ps, okStr p.key ∧ okStr p.val) → ps.length + 1 ≤ f →
    (∀ p ∈ ps, hasKey acc p.key = false) → (ps.map SQPair.key).Nodup →
    parseMembers f (joinSep (str ", ") (ps.map renderDQPair) ++ '}' :: rest) acc
      = some (Value.vdict (acc ++ ps.map (fun p => (p.key, Value.vstr p.val))), rest) := by
  intro ps
  induction ps with
  | nil =>
    intro f acc rest hne
    exact absurd rfl hne
  | cons p tl ih =>
    intro f acc rest hne hok hf hacc hnd
    simp only [List.length_cons] at hf
    obtain ⟨g, rfl⟩ : ∃ g, f = g + 1 := ⟨f - 1, by omega⟩
    obtain ⟨g', rfl⟩ : ∃ g', g = g' + 1 := ⟨g - 1, by omega⟩
    have hokp := hok p (List.mem_cons_self _ _)
    have hkchars : ∀ c ∈ p.key, c ≠ '"' ∧ c ≠ '\\' := fun c hc =>
      ⟨okChar_ne (hokp.1 c hc) (by decide), okChar_ne (hokp.1 c hc) (by decide)⟩
    have hvchars : ∀ c ∈ p.val, c ≠ '"' ∧ c ≠ '\\' := fun c hc =>
      ⟨okChar_ne (hokp.2 c hc) (by decide), okChar_ne (hokp.2 c hc) (by decide)⟩
    have hset : setVal acc p.key (Value.vstr p.val) = acc ++ [(p.key, Value.vstr p.val)] :=
      setVal_eq_append _ _ _ (hacc p (List.mem_cons_self _ _))
    cases tl with
    | nil =>
      have hshape : joinSep (str ", ") (List.map renderDQPair [p]) ++ '}' :: rest
          = '"' :: (p.key ++ ('"' :: (':' :: (' ' ::
              ('"' :: (p.val ++ ('"' :: ('}' :: rest)))))))) := by
        show renderDQPair p ++ '}' :: rest = _
        simp [renderDQPair, List.append_assoc]
        rfl
      rw [hshape, parseMembers.eq_def]
      simp only [parseStrBody_plain hkchars, skipWs_cons_neg (c := ':') rfl,
        parseVal_sp_string g' p.val ('}' :: rest) hvchars,
        skipWs_cons_neg (c := '}') rfl, hset]
      rfl
    | cons q qts =>
      have hJ : ∃ R0, joinSep (str ", ") (List.map renderDQPair (q :: qts)) = '"' :: R0 := by
        cases qts with
        | nil => exact ⟨_, rfl⟩
        | cons r1 rs => exact ⟨_, rfl⟩
      obtain ⟨R0, hR0⟩ := hJ
      have hshape : joinSep (str ", ") (List.map renderDQPair (p :: q :: qts)) ++ '}' :: rest
          = '"' :: (p.key ++ ('"' :: (':' :: (' ' :: ('"' :: (p.val ++ ('"' :: (',' :: (' ' ::
              (joinSep (str ", ") (List.map renderDQPair (q :: qts)) ++ '}' :: rest)))))))))) := by
        show (renderDQPair p ++ str ", "
            ++ joinSep (str ", ") (List.map renderDQPair (q :: qts))) ++ '}' :: rest = _
        simp [renderDQPair, List.append_assoc]
        rfl
      have hsw : skipWs (' ' :: (joinSep (str ", ") (List.map renderDQPair (q :: qts))
          ++ '}' :: rest))
          = joinSep (str ", ") (List.map renderDQPair (q :: qts)) ++ '}' :: rest := by
        rw [hR0]
        simp [skipWs, List.dropWhile, (show isPySpace ' ' = true from rfl),
          (show isPySpace '"' = false from rfl)]
      have hacc' : ∀ p' ∈ q :: qts, hasKey (acc ++ [(p.key, Value.vstr p.val)]) p'.key
          = false := by
        intro p' hp'
        rw [hasKey_append_single]
        have h1 : hasKey acc p'.key = false := hacc p' (List.mem_cons_of_mem _ hp')
        have h2 : p.key ≠ p'.key := by
          have hnotin : p.key ∉ (q :: qts).map SQPair.key := (List.nodup_cons.1 hnd).1
          intro he
          exact hnotin (he ▸ List.mem_map_of_mem SQPair.key hp')
        simp [h1, h2]
      have hih := ih (g' + 1) (acc ++ [(p.key, Value.vstr p.val)]) rest
        (List.cons_ne_nil _ _) (fun x hx => hok x (List.mem_cons_of_mem _ hx))
        (by simp only [List.length_cons] at hf ⊢; omega) hacc' (List.nodup_cons.1 hnd).2
      rw [hshape, parseMembers.eq_def]
      simp only [parseStrBody_plain hkchars, skipWs_cons_neg (c := ':') rfl,
        parseVal_sp_string g' p.val _ hvchars,
        skipWs_cons_neg (c := ',') rfl, hsw, hset, hih]
      simp [List.append_assoc]

theorem renderDQPair_len (p : SQPair) : 1 ≤ (renderDQPair p).length := by
  simp [renderDQPair]

theorem joinSep_render_len (ps : List SQPair) :
    ps.length ≤ (joinSep (str ", ") (ps.map renderDQPair)).length := by
  induction ps with
  | nil => simp
  | cons p tl ih =>
    cases tl with
    | nil =>
      show 1 ≤ (renderDQPair p).length
      exact renderDQPair_len p
    | cons q qts =>
      show (q :: qts).length + 1
          ≤ (renderDQPair p ++ str ", "
              ++ joinSep (str ", ") ((q :: qts).map renderDQPair)).length
      have h1 := renderDQPair_len p
      simp only [List.length_append] at *
      omega
set_option maxHeartbeats 1000000 in
theorem parseVal_obj (f : Nat) (R0 rest : Str) :
    parseVal (f + 1) ('{' :: (('"' :: R0) ++ '}' :: rest))
      = parseMembers f (('"' :: R0) ++ '}' :: rest) [] := by
  rw [parseVal.eq_def]
  simp only [List.cons_append, skipWs_cons_neg (c := '{') rfl,
    skipWs_cons_neg (c := '"') rfl]
  split
  case _ r heq =>
    injection heq with h1 h2
    exact absurd h1 (by decide)
  case _ _ => rfl

set_option maxHeartbeats 1000000 in
theorem parseJson_renderFinalBody (ps : List SQPair) (hne : ps ≠ [])
    (hok : ∀ p ∈ ps, okStr p.key ∧ okStr p.val) (hnd : (ps.map SQPair.key).Nodup) :
    parseJson (renderFinalBody ps) = some (intendedValue ps) := by
  obtain ⟨R0, hR0⟩ : ∃ R0, joinSep (str ", ") (ps.map renderDQPair) = '"' :: R0 := by
    cases ps with
    | nil => exact absurd rfl hne
    | cons p tl =>
      cases tl with
      | nil => exact ⟨_, rfl⟩
      | cons q qts => exact ⟨_, rfl⟩
  have hform : renderFinalBody ps = '{' :: (('"' :: R0) ++ '}' :: ([] : Str)) := by
    show '{' :: (joinSep (str ", ") (ps.map renderDQPair) ++ ['}']) = _
    rw [hR0]
  have hjl : ps.length ≤ (joinSep (str ", ") (ps.map renderDQPair)).length :=
    joinSep_render_len ps
  unfold parseJson
  rw [hform]
  rw [show ('{' :: (('"' :: R0) ++ '}' :: ([] : Str))).length + 1
      = ((('"' :: R0) ++ '}' :: ([] : Str)).length + 1) + 1 from by simp]
  rw [parseVal_obj]
  rw [show (('"' : Char) :: R0) ++ '}' :: ([] : Str)
      = joinSep (str ", ") (ps.map renderDQPair) ++ '}' :: ([] : Str) from by rw [hR0]]
  rw [parseMembers_render ps _ [] [] hne hok (by simp; omega) (fun p _ => rfl) hnd]
  simp [intendedValue, skipWs]

/-- **C8.** For every oracle response consisting of a JSON object wrapped in a
fenced code block whose keys are single-quoted and which carries a trailing
comma (keys distinct, keys and values over the word alphabet), the
extraction-and-repair function — fence extraction, a first parse that fails on
the single quotes, then quote normalisation, bare-key quoting,
trailing-comma stripping and one retry parse — returns the parsed structured
object equal to the intended value. -/
theorem claim_C8 (ps : List SQPair) (hne : ps ≠ [])
    (hok : ∀ p ∈ ps, okStr p.key ∧ okStr p.val)
    (hnd : (ps.map SQPair.key).Nodup) :
    extract_json_from_response (fencedResponse ps) = some (intendedValue ps) := by
  simp only [extract_json_from_response]
  rw [selectJsonStr_fenced ps hok, parseJson_renderSQBody ps hne,
    fix_json_string_renderSQBody ps hne hok,
    parseJson_renderFinalBody ps hne hok hnd]

/-- **C8, witness.** The repair round-trip evaluated on the concrete fenced
response for the two-pair object with keys name and type. -/
theorem claim_C8_witness :
    extract_json_from_response
        (fencedResponse [⟨str "name", str "web server"⟩, ⟨str "type", str "t2.micro"⟩])
      = some (intendedValue [⟨str "name", str "web server"⟩, ⟨str "type", str "t2.micro"⟩]) :=
  claim_C8 [⟨str "name", str "web server"⟩, ⟨str "type", str "t2.micro"⟩]
    (by decide) (by simp only [okStr]; decide) (by decide)
